import Mathlib

/-!
Verification of the intent-routing / orchestration layer and the local
vector-search subsystem of the research-in-public application.

The Python sources are shallowly embedded as executable Lean functions:

  - src/services/vector_search_local.py  (LocalVectorSearch)
  - src/services/vector_persistence.py   (JSONFilePersistence)
  - src/agents/guardian.py               (GuardianAgent.scan_content)
  - src/orchestration/intent_classifier.py (IntentClassifier.classify)
  - src/orchestration/agent_orchestrator.py (AgentOrchestrator)
  - src/agents/semantic_matchmaker.py    (SemanticMatchmakerAgent)

Modelling conventions:

  - Python strings are modelled as List Char (code points); slicing,
    strip(), lower()/upper() and the substring operator translate to the
    corresponding list functions.  Whitespace is modelled as the ASCII
    whitespace characters, which is what every string handled by the
    claims contains.
  - Python floats are modelled as rationals.  The numpy cosine similarity
    (a float computation involving a square root) is treated as an
    external capability and passed in as an explicit function parameter,
    exactly like the embedding service that produces the vectors.
  - json.loads is modelled by an executable JSON reader over the JSON
    grammar (objects, arrays, strings with escapes, numbers, booleans,
    null).  Parse failure is Option.none, matching a raised exception.
  - Python dicts are modelled as association lists in insertion order;
    assignment to an existing key keeps the original position and
    replaces the value, which is the CPython dict behaviour.
  - Calls into the hosted language model and into the embedding API are
    nondeterministic external calls; each model function takes the text
    such a call returns as an input (Option being the raised-exception
    case).
-/

/-! ## Python-style text primitives (List Char) -/

/-- Code points of a string literal, the representation used for every
Python string in this development. -/
def txt (s : String) : List Char := s.toList

/-- ASCII lower-casing of one character, modelling str.lower on the ASCII
range used by the keyword tables of the source. -/
def asciiLower (c : Char) : Char :=
  if 'A' ≤ c ∧ c ≤ 'Z' then Char.ofNat (c.toNat + 32) else c

/-- ASCII upper-casing of one character, modelling str.upper on the ASCII
range used by the source. -/
def asciiUpper (c : Char) : Char :=
  if 'a' ≤ c ∧ c ≤ 'z' then Char.ofNat (c.toNat - 32) else c

/-- Python str.lower over the modelled ASCII range. -/
def pyLower (s : List Char) : List Char := s.map asciiLower

/-- Python str.upper over the modelled ASCII range. -/
def pyUpper (s : List Char) : List Char := s.map asciiUpper

/-- ASCII whitespace, the model of Python str.isspace / regex \s for the
texts the claims are about. -/
def isPySpace (c : Char) : Bool :=
  c = ' ' ∨ c = '\t' ∨ c = '\n' ∨ c = '\x0d' ∨ c = '\x0b' ∨ c = '\x0c'

/-- Python str.strip (both ends). -/
def pyStrip (s : List Char) : List Char :=
  ((s.dropWhile isPySpace).reverse.dropWhile isPySpace).reverse

/-- Python substring test (the in operator on str). -/
def contains_sub (needle : List Char) : List Char → Bool
  | [] => needle = []
  | c :: rest => List.isPrefixOf needle (c :: rest) || contains_sub needle rest

/-- Python str.startswith. -/
def startsWith (pre s : List Char) : Bool := List.isPrefixOf pre s

/-- Python str.endswith. -/
def endsWith (suf s : List Char) : Bool := List.isSuffixOf suf s

/-- One step of Python str.replace(old, new) with new being the empty
string: remove non-overlapping occurrences of pat left to right.  Fuel is
the length of the remaining text. -/
def replaceAllAux (pat : List Char) : Nat → List Char → List Char
  | 0, s => s
  | _ + 1, [] => []
  | fuel + 1, c :: rest =>
      if startsWith pat (c :: rest) then
        replaceAllAux pat fuel (List.drop pat.length (c :: rest))
      else
        c :: replaceAllAux pat fuel rest

/-- Python s.replace(pat, "") — all non-overlapping occurrences removed.
An empty pattern leaves the string unchanged, as in CPython with an empty
replacement. -/
def replaceAll (pat s : List Char) : List Char :=
  if pat = [] then s else replaceAllAux pat s.length s

/-- Comma-space join, modelling ", ".join(items). -/
def joinComma (items : List (List Char)) : List Char :=
  match items with
  | [] => []
  | x :: rest => x ++ (rest.map (fun y => txt ", " ++ y)).flatten

/-- First-occurrence deduplication.  CPython list(set(xs)) has
unspecified order; the model fixes the insertion order of first
occurrences.  No theorem below depends on the order chosen. -/
def dedupFirst (xs : List (List Char)) : List (List Char) :=
  xs.foldl (fun acc x => if acc.contains x then acc else acc ++ [x]) []

/-- Python dict assignment d[k] = v on an insertion-ordered association
list: an existing key keeps its position and gets the new value, a new
key is appended. -/
def dictInsert {V : Type} (l : List (List Char × V)) (k : List Char) (v : V) :
    List (List Char × V) :=
  match l with
  | [] => [(k, v)]
  | (k', v') :: t => if k = k' then (k, v) :: t else (k', v') :: dictInsert t k v

/-- Python dict lookup d.get(k). -/
def dictGet {V : Type} (l : List (List Char × V)) (k : List Char) : Option V :=
  match l with
  | [] => none
  | (k', v') :: t => if k = k' then some v' else dictGet t k

/-! ## Model of json.loads -/

/-- JSON values as produced by json.loads, plus jrat, a runtime-only
constructor used to carry Python floats inside metadata dictionaries (it
is never produced by the reader below). -/
inductive JVal where
  | jstr (s : List Char)
  | jnum (raw : List Char)
  | jbool (b : Bool)
  | jnull
  | jarr (elems : List JVal)
  | jobj (fields : List (List Char × JVal))
  | jrat (q : ℚ)

/-- Default JSON value (the null literal). -/
instance : Inhabited JVal := ⟨JVal.jnull⟩

/-- JSON inter-token whitespace. -/
def isJsonWs (c : Char) : Bool :=
  c = ' ' ∨ c = '\t' ∨ c = '\n' ∨ c = '\x0d'

/-- Value of one hexadecimal digit. -/
def hexVal (c : Char) : Option Nat :=
  if '0' ≤ c ∧ c ≤ '9' then some (c.toNat - 48)
  else if 'a' ≤ c ∧ c ≤ 'f' then some (c.toNat - 87)
  else if 'A' ≤ c ∧ c ≤ 'F' then some (c.toNat - 70)
  else none

/-- JSON string body reader (the opening quote already consumed), with
the standard escapes including unicode escapes; returns the decoded
characters and the rest of the input.  Control characters are rejected
as in the strict mode of json.loads.  Surrogate pairs are not modelled. -/
def parseJStr : Nat → List Char → Option (List Char × List Char)
  | 0, _ => none
  | _ + 1, [] => none
  | fuel + 1, c :: rest =>
      if c = '\"' then some ([], rest)
      else if c = '\\' then
        match rest with
        | [] => none
        | e :: rest2 =>
          if e = '\"' then (parseJStr fuel rest2).map (fun p => ('\"' :: p.1, p.2))
          else if e = '\\' then (parseJStr fuel rest2).map (fun p => ('\\' :: p.1, p.2))
          else if e = '/' then (parseJStr fuel rest2).map (fun p => ('/' :: p.1, p.2))
          else if e = 'b' then (parseJStr fuel rest2).map (fun p => ('\x08' :: p.1, p.2))
          else if e = 'f' then (parseJStr fuel rest2).map (fun p => ('\x0c' :: p.1, p.2))
          else if e = 'n' then (parseJStr fuel rest2).map (fun p => ('\n' :: p.1, p.2))
          else if e = 'r' then (parseJStr fuel rest2).map (fun p => ('\x0d' :: p.1, p.2))
          else if e = 't' then (parseJStr fuel rest2).map (fun p => ('\t' :: p.1, p.2))
          else if e = 'u' then
            match rest2 with
            | h1 :: h2 :: h3 :: h4 :: rest3 =>
              match hexVal h1, hexVal h2, hexVal h3, hexVal h4 with
              | some a, some b, some cc, some d =>
                let n := ((a * 16 + b) * 16 + cc) * 16 + d
                if 0xd800 ≤ n ∧ n ≤ 0xdfff then none
                else (parseJStr fuel rest3).map (fun p => (Char.ofNat n :: p.1, p.2))
              | _, _, _, _ => none
            | _ => none
          else none
      else if c.toNat < 32 then none
      else (parseJStr fuel rest).map (fun p => (c :: p.1, p.2))

/-- JSON number reader following the JSON grammar (optional sign, no
leading zeros, optional fraction and exponent); the raw consumed text is
kept, which is enough for the string operations the source applies to
parsed values. -/
def parseJNum (cs : List Char) : Option (List Char × List Char) :=
  let (sign, cs1) :=
    match cs with
    | '-' :: rest => (['-'], rest)
    | _ => (([] : List Char), cs)
  match cs1 with
  | [] => none
  | c :: rest =>
    if ¬ c.isDigit then none
    else
      let (intPart, afterInt) :=
        if c = '0' then (['0'], rest)
        else (c :: rest.takeWhile Char.isDigit, rest.dropWhile Char.isDigit)
      if (afterInt.head?.map Char.isDigit).getD false then none
      else
        let (fracPart, afterFrac) :=
          match afterInt with
          | '.' :: fr =>
            if (fr.head?.map Char.isDigit).getD false then
              ('.' :: fr.takeWhile Char.isDigit, fr.dropWhile Char.isDigit)
            else ([], '.' :: fr)
          | _ => ([], afterInt)
        if fracPart = [] ∧ afterInt.head? = some '.' then none
        else
          let (expPart, afterExp) :=
            match afterFrac with
            | e :: ex =>
              if e = 'e' ∨ e = 'E' then
                let (esign, ex2) :=
                  match ex with
                  | s :: ex3 => if s = '+' ∨ s = '-' then ([s], ex3) else ([], ex)
                  | [] => ([], ex)
                if (ex2.head?.map Char.isDigit).getD false then
                  (e :: esign ++ ex2.takeWhile Char.isDigit, ex2.dropWhile Char.isDigit)
                else ([], afterFrac)
              else ([], afterFrac)
            | [] => ([], afterFrac)
          let startsExp : Bool :=
            match afterFrac with
            | e :: _ => e = 'e' ∨ e = 'E'
            | [] => false
          if expPart = [] ∧ startsExp then none
          else some (sign ++ intPart ++ fracPart ++ expPart, afterExp)

mutual

/-- JSON value reader modelling json.loads; fuel bounds the recursion
depth and element count. -/
def parseJVal : Nat → List Char → Option (JVal × List Char)
  | 0, _ => none
  | fuel + 1, cs =>
    let cs := cs.dropWhile isJsonWs
    match cs with
    | [] => none
    | c :: rest =>
      if c = '\x7b' then
        (parseJObjBody fuel rest true).map
          (fun p => (JVal.jobj (p.1.foldl (fun d kv => dictInsert d kv.1 kv.2) []), p.2))
      else if c = '[' then
        (parseJArrBody fuel rest true).map (fun p => (JVal.jarr p.1, p.2))
      else if c = '\"' then
        (parseJStr rest.length rest).map (fun p => (JVal.jstr p.1, p.2))
      else if startsWith (txt "true") cs then some (JVal.jbool true, cs.drop 4)
      else if startsWith (txt "false") cs then some (JVal.jbool false, cs.drop 5)
      else if startsWith (txt "null") cs then some (JVal.jnull, cs.drop 4)
      else if c = '-' ∨ c.isDigit then
        (parseJNum cs).map (fun p => (JVal.jnum p.1, p.2))
      else none

/-- Array elements after the opening bracket; the flag says whether a
closing bracket may come immediately (true only before the first
element, since JSON has no trailing commas). -/
def parseJArrBody : Nat → List Char → Bool → Option (List JVal × List Char)
  | 0, _, _ => none
  | fuel + 1, cs, first =>
    let cs := cs.dropWhile isJsonWs
    match cs with
    | [] => none
    | c :: rest =>
      if c = ']' ∧ first then some ([], rest)
      else
        match parseJVal fuel cs with
        | none => none
        | some (v, after) =>
          let after := after.dropWhile isJsonWs
          match after with
          | ',' :: more => (parseJArrBody fuel more false).map (fun p => (v :: p.1, p.2))
          | ']' :: more => some ([v], more)
          | _ => none

/-- Object members after the opening brace, as a raw key/value list in
source order (duplicate handling happens at jobj construction). -/
def parseJObjBody : Nat → List Char → Bool →
    Option (List (List Char × JVal) × List Char)
  | 0, _, _ => none
  | fuel + 1, cs, first =>
    let cs := cs.dropWhile isJsonWs
    match cs with
    | [] => none
    | c :: rest =>
      if c = '\x7d' ∧ first then some ([], rest)
      else if c = '\"' then
        match parseJStr rest.length rest with
        | none => none
        | some (key, afterKey) =>
          match afterKey.dropWhile isJsonWs with
          | ':' :: afterColon =>
            match parseJVal fuel afterColon with
            | none => none
            | some (v, afterVal) =>
              match afterVal.dropWhile isJsonWs with
              | ',' :: more =>
                (parseJObjBody fuel more false).map (fun p => ((key, v) :: p.1, p.2))
              | '\x7d' :: more => some ([(key, v)], more)
              | _ => none
          | _ => none
      else none

end

/-- Model of json.loads: the whole input must be one JSON value modulo
surrounding whitespace; none models a raised ValueError. -/
def jsonLoads (cs : List Char) : Option JVal :=
  match parseJVal (cs.length + 2) cs with
  | some (v, rest) => if rest.dropWhile isJsonWs = [] then some v else none
  | none => none

mutual

/-- Python str() of a parsed JSON value, for the places where the source
stringifies a field of the parsed reply.  Strings print verbatim,
booleans and null use the Python spellings, numbers keep their source
text (the only use is a substring test for letters, which no numeral can
satisfy), containers use the Python list syntax with repr elements. -/
def pyStr : JVal → List Char
  | .jstr s => s
  | .jnum raw => raw
  | .jbool true => txt "True"
  | .jbool false => txt "False"
  | .jnull => txt "None"
  | .jrat _ => txt ""
  | .jarr elems => '[' :: (joinComma (pyReprList elems) ++ [']'])
  | .jobj _ => txt "\x7b\x7d"

/-- Python repr applied to each element of a list (string elements are
wrapped in single quotes; internal quote escaping is not modelled and is
never exercised). -/
def pyReprList : List JVal → List (List Char)
  | [] => []
  | .jstr s :: rest => (Char.ofNat 39 :: s ++ [Char.ofNat 39]) :: pyReprList rest
  | v :: rest => pyStr v :: pyReprList rest

end


/-! ## Data schemas (src/data/schemas.py) and settings (src/config/settings.py) -/

/-- RiskLevel enumeration of schemas.py. -/
inductive RiskLevel where
  | LOW
  | MEDIUM
  | HIGH
deriving DecidableEq

/-- GuardianReport of schemas.py (concerns and suggestions are lists of
strings, enforced by pydantic validation at construction). -/
structure GuardianReport where
  risk_level : RiskLevel
  concerns : List (List Char)
  blocked : Bool
  suggestions : List (List Char)
deriving DecidableEq

/-- PeerProfile of schemas.py.  anonymized_metadata is an open mapping
whose values are arbitrary JSON-like runtime values. -/
structure PeerProfile where
  profile_id : List Char
  embedding : List ℚ
  struggle_text : List Char
  academic_stage : Option (List Char)
  research_area : Option (List Char)
  anonymized_metadata : List (List Char × JVal)

/-- MatchResult of schemas.py. -/
structure MatchResult where
  profile_id : List Char
  similarity_score : ℚ
  match_reason : List Char
  suggested_connection : Bool
deriving DecidableEq

/-- The configuration knobs of settings.py that the modelled code reads. -/
structure Settings where
  min_struggle_length : Nat
  deduplication_threshold : ℚ
  auto_save_interval : Nat
  enable_real_user_data : Bool

/-- The rational 0.95 in lowest terms (a kernel-computable literal). -/
def q095 : ℚ := ⟨19, 20, by norm_num, by norm_num⟩

/-- The rational 0.7 in lowest terms (a kernel-computable literal). -/
def q07 : ℚ := ⟨7, 10, by norm_num, by norm_num⟩

/-- Environment-default values of settings.py (0.95 is the deduplication
threshold). -/
def defaultSettings : Settings :=
  { min_struggle_length := 20
    deduplication_threshold := q095
    auto_save_interval := 10
    enable_real_user_data := true }

/-! ## Local vector store (src/services/vector_search_local.py)

The model covers the configuration in which the optional FAISS library is
absent (the ImportError branch of the source sets FAISS_AVAILABLE to
false), so search_similar always dispatches to the cosine fallback; the
spec requires both backends to produce the same ranking.  The numpy
cosine_similarity of embedding_service.py is a float computation passed
in as the parameter named cosine; the embedding API call is the
parameter named embedOf, with none modelling a raised exception. -/

/-- In-memory state of LocalVectorSearch: the profile dict, the embedding
list, the parallel id list, the auto-save counter, and the lazy-load
flag. -/
structure VStore where
  profiles : List (List Char × PeerProfile)
  embeddings : List (List ℚ)
  profile_ids : List (List Char)
  additions_since_save : Nat
  persisted_data_loaded : Bool

/-- Freshly constructed store (no persisted data loaded on init). -/
def emptyStore : VStore :=
  { profiles := [], embeddings := [], profile_ids := []
    additions_since_save := 0, persisted_data_loaded := false }

/-- LocalVectorSearch._validate_profile. -/
def validate_profile (st : Settings) (p : PeerProfile) : Bool :=
  if (pyStrip p.struggle_text).length < st.min_struggle_length then false
  else if p.embedding = [] then false
  else true

/-- LocalVectorSearch._is_duplicate: any existing embedding at similarity
at least the deduplication threshold rejects. -/
def is_duplicate (st : Settings) (cosine : List ℚ → List ℚ → ℚ)
    (s : VStore) (p : PeerProfile) : Bool :=
  if s.embeddings = [] then false
  else s.embeddings.any (fun e => st.deduplication_threshold ≤ cosine p.embedding e)

/-- LocalVectorSearch.add_peer_profile.  Validation and deduplication run
before any mutation; on acceptance the profile enters the dict, the
embedding and id lists grow, and the auto-save counter advances, being
reset to zero when it reaches the interval (save_to_json never raises —
its JSONFilePersistence.save catches every exception and returns False —
and its return value is ignored, so the reset happens whether or not the
save succeeded). -/
def add_peer_profile (st : Settings) (cosine : List ℚ → List ℚ → ℚ)
    (s : VStore) (p : PeerProfile) (skip_deduplication : Bool) : Bool × VStore :=
  if ¬ validate_profile st p then (false, s)
  else if ¬ skip_deduplication ∧ is_duplicate st cosine s p then (false, s)
  else
    let s1 : VStore := { s with
      profiles := dictInsert s.profiles p.profile_id p
      embeddings := s.embeddings ++ [p.embedding]
      profile_ids := s.profile_ids ++ [p.profile_id] }
    let n := s1.additions_since_save + 1
    if st.auto_save_interval ≤ n then (true, { s1 with additions_since_save := 0 })
    else (true, { s1 with additions_since_save := n })

/-- LocalVectorSearch.add_profiles_batch: add each profile, then save once
(and reset the counter) if at least one was added.  Returns the store and
the added count. -/
def add_profiles_batch (st : Settings) (cosine : List ℚ → List ℚ → ℚ)
    (s : VStore) (ps : List PeerProfile) (skip_deduplication : Bool) : VStore × Nat :=
  let step := ps.foldl
    (fun (acc : VStore × Nat) p =>
      let r := add_peer_profile st cosine acc.1 p skip_deduplication
      (r.2, if r.1 then acc.2 + 1 else acc.2))
    (s, 0)
  if 0 < step.2 then ({ step.1 with additions_since_save := 0 }, step.2)
  else step

/-- Stable descending insertion on the first component, modelling one
placement step of the Python list.sort(key, reverse=True): a new element
goes before the first strictly smaller key and after equal keys. -/
def desc_insert (x : ℚ × Nat) : List (ℚ × Nat) → List (ℚ × Nat)
  | [] => [x]
  | y :: ys => if y.1 < x.1 then x :: y :: ys else y :: desc_insert x ys

/-- Python similarities.sort(key=first component, reverse=True): a stable
descending sort. -/
def py_sort_desc (l : List (ℚ × Nat)) : List (ℚ × Nat) :=
  l.foldl (fun acc x => desc_insert x acc) []

/-- Reason text attached to each match. -/
def match_reason_of (p : PeerProfile) : List Char :=
  txt "Similar struggle: " ++ p.struggle_text.take 100 ++ txt "..."

/-- Construction of the MatchResult list from the sorted, truncated
(similarity, index) pairs; a missing index or profile id is the KeyError /
IndexError case and aborts the whole call (none). -/
def build_results (s : VStore) : List (ℚ × Nat) → Option (List MatchResult)
  | [] => some []
  | (sim, idx) :: rest =>
    match s.profile_ids.get? idx with
    | none => none
    | some pid =>
      match dictGet s.profiles pid with
      | none => none
      | some p =>
        match build_results s rest with
        | none => none
        | some rs =>
          some ({ profile_id := pid, similarity_score := sim
                  match_reason := match_reason_of p
                  suggested_connection := true } :: rs)

/-- LocalVectorSearch._search_cosine: filter by threshold with the
original index, sort by similarity descending (stable), truncate to
top_k, build results. -/
def search_cosine (cosine : List ℚ → List ℚ → ℚ) (s : VStore)
    (query_embedding : List ℚ) (top_k : Nat) (threshold : ℚ) :
    Option (List MatchResult) :=
  let similarities := s.embeddings.enum.filterMap
    (fun ie =>
      let sim := cosine query_embedding ie.2
      if threshold ≤ sim then some (sim, ie.1) else none)
  build_results s ((py_sort_desc similarities).take top_k)

/-- LocalVectorSearch.search_similar: empty stores short-circuit to the
empty list before any embedding call; then the query is embedded (a
failure propagates, none) and the cosine fallback runs. -/
def search_similar (cosine : List ℚ → List ℚ → ℚ)
    (embedOf : List Char → Option (List ℚ)) (s : VStore)
    (query_text : List Char) (top_k : Nat) (threshold : ℚ) :
    Option (List MatchResult) :=
  if ¬ s.persisted_data_loaded ∧ s.embeddings = [] then some []
  else if s.embeddings = [] then some []
  else
    match embedOf query_text with
    | none => none
    | some qe => search_cosine cosine s qe top_k threshold

/-- LocalVectorSearch.get_stats (the fields the claims mention). -/
def get_stats (s : VStore) : Nat × Nat × Nat :=
  (s.profiles.length, s.embeddings.length, s.additions_since_save)

/-! ## Persistence (src/services/vector_persistence.py and
LocalVectorSearch save/load) -/

/-- One object of the persisted JSON array: embeddings are deliberately
excluded from the persisted form. -/
structure PRecord where
  profile_id : List Char
  struggle_text : List Char
  academic_stage : Option (List Char)
  research_area : Option (List Char)
  anonymized_metadata : List (List Char × JVal)

/-- JSONFilePersistence.save, composed with save_to_json: the profile
dict values in insertion order, serialized without embeddings.  The JSON
file itself is modelled by the record list (json.dump followed by
json.load is the identity on this data). -/
def save_profiles (s : VStore) : List PRecord :=
  s.profiles.map (fun kv =>
    { profile_id := kv.2.profile_id
      struggle_text := kv.2.struggle_text
      academic_stage := kv.2.academic_stage
      research_area := kv.2.research_area
      anonymized_metadata := kv.2.anonymized_metadata })

/-- Record loop of LocalVectorSearch._load_persisted_data: each record has
its embedding regenerated (a per-record failure is logged and skipped, not
fatal) and is inserted directly into the store maps.  The incremental
FAISS rebuild cadence of the source does not apply to the modelled
no-FAISS configuration. -/
def load_records (embedOf : List Char → Option (List ℚ)) :
    List PRecord → VStore → VStore
  | [], s => s
  | r :: rest, s =>
    match embedOf r.struggle_text with
    | none => load_records embedOf rest s
    | some e =>
      let p : PeerProfile :=
        { profile_id := r.profile_id, embedding := e
          struggle_text := r.struggle_text
          academic_stage := r.academic_stage
          research_area := r.research_area
          anonymized_metadata := r.anonymized_metadata }
      load_records embedOf rest
        { s with
          profiles := dictInsert s.profiles p.profile_id p
          embeddings := s.embeddings ++ [e]
          profile_ids := s.profile_ids ++ [p.profile_id] }

/-- LocalVectorSearch._load_persisted_data: no-op when already loaded;
otherwise read the persisted records (the empty list covers a missing or
empty file) and mark the store as loaded in every case. -/
def load_persisted_data (embedOf : List Char → Option (List ℚ))
    (records : List PRecord) (s : VStore) : VStore :=
  if s.persisted_data_loaded then s
  else if records.isEmpty then { s with persisted_data_loaded := true }
  else { load_records embedOf records s with persisted_data_loaded := true }

/-! ## Guardian safety scan (src/agents/guardian.py)

scan_content builds its report from the text the generative call returns
(the parameter gen, none being a raised upstream exception) and from the
scanned content itself (the heuristic extraction patterns run on the
content).  The regular expressions of the source are modelled
operationally with the exact POSIX-leftmost semantics of the re module
on these patterns. -/

/-- Brace characters, the character class excluded inside the risk-level
JSON candidate. -/
def isBrace (c : Char) : Bool := c = '\x7b' ∨ c = '\x7d'

/-- Model of re.search of the pattern brace, non-braces containing the
quoted key risk_level, closing brace: the leftmost opening brace whose
brace-free span ends at a closing brace and contains the quoted key
yields the match; otherwise the scan moves one character forward, as the
re engine does. -/
def find_candidate : List Char → Option (List Char)
  | [] => none
  | c :: rest =>
    if c = '\x7b' then
      let span := rest.takeWhile (fun d => ¬ isBrace d)
      match rest.drop span.length with
      | d :: _ =>
        if d = '\x7d' ∧ contains_sub (txt "\"risk_level\"") span then
          some ('\x7b' :: (span ++ ['\x7d']))
        else find_candidate rest
      | [] => find_candidate rest
    else find_candidate rest

/-- ASCII letter, the model of the character classes of the heuristic
patterns under re.IGNORECASE. -/
def isAsciiAlpha (c : Char) : Bool := ('A' ≤ c ∧ c ≤ 'Z') ∨ ('a' ≤ c ∧ c ≤ 'z')

/-- Letters, digits or hyphen — the reagent token class under
re.IGNORECASE. -/
def isAlnumDash (c : Char) : Bool := isAsciiAlpha c ∨ c.isDigit ∨ c = '-'

/-- Case-insensitive literal prefix match returning the remainder. -/
def stripCI : List Char → List Char → Option (List Char)
  | [], s => some s
  | _ :: _, [] => none
  | l :: ls, c :: cs => if asciiLower c = asciiLower l then stripCI ls cs else none

/-- Capture group letter followed by letters (at least two letters in
total), greedy. -/
def capWord (s : List Char) : Option (List Char × List Char) :=
  match s with
  | [] => none
  | c :: rest =>
    if isAsciiAlpha c then
      let tail := rest.takeWhile isAsciiAlpha
      if tail.isEmpty then none else some (c :: tail, rest.drop tail.length)
    else none

/-- Capture group of one or more letters, digits or hyphens, greedy. -/
def capToken (s : List Char) : Option (List Char × List Char) :=
  match s with
  | [] => none
  | c :: _ =>
    if isAlnumDash c then
      let tok := s.takeWhile isAlnumDash
      some (tok, s.drop tok.length)
    else none

/-- One attempt of the pattern alternation of keywords, then mandatory
whitespace, then the capture group, at the current position; the
alternatives are tried in pattern order. -/
def matchKwsAt (cap : List Char → Option (List Char × List Char)) :
    List (List Char) → List Char → Option (List Char × List Char)
  | [], _ => none
  | kw :: kws, s =>
    match stripCI kw s with
    | some after =>
      let ws := after.takeWhile isPySpace
      if ws.isEmpty then matchKwsAt cap kws s
      else
        match cap (after.drop ws.length) with
        | some (g, rest) => some (g, rest)
        | none => matchKwsAt cap kws s
    | none => matchKwsAt cap kws s

/-- Model of re.findall for the heuristic patterns: non-overlapping
matches scanned left to right, collecting the capture groups. -/
def findallAux (cap : List Char → Option (List Char × List Char))
    (kws : List (List Char)) : Nat → List Char → List (List Char)
  | 0, _ => []
  | _ + 1, [] => []
  | fuel + 1, c :: rest =>
    match matchKwsAt cap kws (c :: rest) with
    | some (g, after) => g :: findallAux cap kws fuel after
    | none => findallAux cap kws fuel rest

/-- re.findall of one heuristic pattern over the scanned content. -/
def findall (cap : List Char → Option (List Char × List Char))
    (kws : List (List Char)) (s : List Char) : List (List Char) :=
  findallAux cap kws s.length s

/-- The detected_items dictionary of scan_content. -/
structure Detected where
  pi_names : List (List Char)
  reagent_names : List (List Char)
  institutions : List (List Char)
  sequences : List (List Char)

/-- Initial detected_items: all categories empty. -/
def initDetected : Detected := ⟨[], [], [], []⟩

/-- A parsed JSON array all of whose elements are strings, as the list of
those strings; anything else is none.  This is where pydantic accepts or
rejects a List of str field. -/
def jStrList (vs : List JVal) : Option (List (List Char)) :=
  match vs with
  | [] => some []
  | .jstr s :: rest => (jStrList rest).map (fun t => s :: t)
  | _ => none

/-- Replacement of detected_items by a parsed object (each category read
when it is an array of strings; the branch needs a nested object inside
the brace-free candidate, so it cannot fire on any reply the candidate
extraction accepts). -/
def detectedOfJObj (f : List (List Char × JVal)) : Detected :=
  let getL := fun k =>
    match dictGet f (txt k) with
    | some (.jarr vs) => (jStrList vs).getD []
    | _ => []
  { pi_names := getL "pi_names", reagent_names := getL "reagent_names"
    institutions := getL "institutions", sequences := getL "sequences" }

/-- Intermediate scan state: risk level, blocked flag, the raw parsed
concerns and suggestions (still arbitrary JSON values at this point), and
the detected-items dictionary. -/
structure ScanState where
  risk : RiskLevel
  blocked : Bool
  concernsJ : List JVal
  suggestionsJ : List JVal
  detected : Detected

/-- Structured phase of scan_content: extract the first brace-free JSON
candidate containing the risk_level key, parse it, and read risk level
(HIGH as substring of the upper-cased stringified value sets HIGH and
blocked together; MEDIUM sets MEDIUM), concerns, suggestions and
detected_items.  The blocked field of the reply is never read.  A parse
failure is the inner bare except: everything stays at its default. -/
def json_phase (response : List Char) : ScanState :=
  let init : ScanState := ⟨RiskLevel.LOW, false, [], [], initDetected⟩
  match find_candidate response with
  | none => init
  | some cand =>
    match jsonLoads cand with
    | some (.jobj parsed) =>
      let rb :=
        match dictGet parsed (txt "risk_level") with
        | some v =>
          let risk_str := pyUpper (pyStr v)
          if contains_sub (txt "HIGH") risk_str then (RiskLevel.HIGH, true)
          else if contains_sub (txt "MEDIUM") risk_str then (RiskLevel.MEDIUM, false)
          else (RiskLevel.LOW, false)
        | none => (RiskLevel.LOW, false)
      let concernsJ :=
        match dictGet parsed (txt "concerns") with
        | some (.jarr vs) => vs
        | _ => []
      let suggestionsJ :=
        match dictGet parsed (txt "suggestions") with
        | some (.jarr vs) => vs
        | _ => []
      let detected :=
        match dictGet parsed (txt "detected_items") with
        | some (.jobj d) => detectedOfJObj d
        | _ => initDetected
      ⟨rb.1, rb.2, concernsJ, suggestionsJ, detected⟩
    | _ => init

/-- Keyword alternations of the three heuristic extraction patterns, in
pattern order. -/
def piKws : List (List Char) := [txt "professor", txt "dr.", txt "pi"]

/-- Reagent keyword alternation. -/
def reagentKws : List (List Char) := [txt "reagent", txt "antibody", txt "compound"]

/-- Institution keyword alternation. -/
def instKws : List (List Char) := [txt "university", txt "lab", txt "institute"]

/-- Fallback phase of scan_content, entered only when the structured
phase produced no concerns: re-derive the risk level from HIGH/MEDIUM
substrings of the upper-cased raw reply (HIGH sets blocked; the MEDIUM
branch leaves blocked as it was), then run the three extraction patterns
over the scanned content, recording categories and concern lines, and
finally the generic concern when the reply mentions concern or issue. -/
def fallback_phase (response content : List Char) (st : ScanState) : ScanState :=
  if st.concernsJ.isEmpty then
    let rb :=
      if contains_sub (txt "HIGH") (pyUpper response) then (RiskLevel.HIGH, true)
      else if contains_sub (txt "MEDIUM") (pyUpper response) then (RiskLevel.MEDIUM, st.blocked)
      else (st.risk, st.blocked)
    let pi := findall capWord piKws content
    let d1 :=
      if ¬ pi.isEmpty then { st.detected with pi_names := dedupFirst pi } else st.detected
    let c1 : List JVal :=
      if ¬ pi.isEmpty then
        [JVal.jstr (txt "Detected PI name(s): " ++ joinComma (dedupFirst pi))]
      else []
    let re' := findall capToken reagentKws content
    let d2 :=
      if ¬ re'.isEmpty then { d1 with reagent_names := dedupFirst re' } else d1
    let c2 : List JVal :=
      if ¬ re'.isEmpty then
        c1 ++ [JVal.jstr (txt "Detected reagent name(s): " ++ joinComma (dedupFirst re'))]
      else c1
    let inst := findall capWord instKws content
    let d3 :=
      if ¬ inst.isEmpty then { d2 with institutions := dedupFirst inst } else d2
    let c3 : List JVal :=
      if ¬ inst.isEmpty then
        c2 ++ [JVal.jstr (txt "Detected institution name(s): " ++ joinComma (dedupFirst inst))]
      else c2
    let c4 : List JVal :=
      if c3.isEmpty ∧ (contains_sub (txt "concern") (pyLower response) ∨
          contains_sub (txt "issue") (pyLower response)) then
        [JVal.jstr (txt "Potential IP-sensitive content detected")]
      else c3
    ⟨rb.1, rb.2, c4, st.suggestionsJ, d3⟩
  else st

/-- Report assembly of scan_content: the synthesized redaction suggestion
when blocked with no suggestions, the pydantic validation of the concern
and suggestion lists (a non-string element raises, which the outer except
turns into the degraded report — the none result here), and the
deduplicated category lines prepended to the concerns. -/
def scan_body (response content : List Char) : Option GuardianReport :=
  let st := fallback_phase response content (json_phase response)
  let suggestionsJ :=
    if st.blocked ∧ st.suggestionsJ.isEmpty then
      st.suggestionsJ ++
        [JVal.jstr (txt "Remove specific reagent names, sequences, or institution identifiers")]
    else st.suggestionsJ
  match jStrList st.concernsJ, jStrList suggestionsJ with
  | some concerns0, some suggestions0 =>
    let c1 :=
      if ¬ st.detected.pi_names.isEmpty then
        (txt "Detected PI name(s): " ++ joinComma st.detected.pi_names) ::
          concerns0.filter (fun c => ¬ startsWith (txt "Detected PI name") c)
      else concerns0
    let c2 :=
      if ¬ st.detected.reagent_names.isEmpty then
        (txt "Detected reagent name(s): " ++ joinComma st.detected.reagent_names) ::
          c1.filter (fun c => ¬ startsWith (txt "Detected reagent name") c)
      else c1
    let c3 :=
      if ¬ st.detected.institutions.isEmpty then
        (txt "Detected institution name(s): " ++ joinComma st.detected.institutions) ::
          c2.filter (fun c => ¬ startsWith (txt "Detected institution name") c)
      else c2
    some { risk_level := st.risk, concerns := c3, blocked := st.blocked
           suggestions := suggestions0 }
  | _, _ => none

/-- Degraded report of the outer except handler: non-blocking MEDIUM with
the manual-review suggestion. -/
def exception_report : GuardianReport :=
  { risk_level := RiskLevel.MEDIUM
    concerns := [txt "Error during scan"]
    blocked := false
    suggestions := [txt "Please review content manually"] }

/-- GuardianAgent.scan_content: a raised generative call (gen = none) or
any exception inside the scan body yields the degraded report; otherwise
the assembled report is returned. -/
def scan_content (gen : Option (List Char)) (content : List Char) : GuardianReport :=
  match gen with
  | none => exception_report
  | some response => (scan_body response content).getD exception_report

/-! ## Intent classifier (src/orchestration/intent_classifier.py) -/

/-- Result of IntentClassifier.classify. -/
structure IntentResult where
  intent : List Char
  confidence : List Char
  raw_response : List Char
deriving DecidableEq

/-- Grant override keywords (highest priority). -/
def grant_keywords : List (List Char) :=
  [txt "grant proposal", txt "grant", txt "proposal", txt "research plan",
   txt "feedback on", txt "review my", txt "critique", txt "mentorship", txt "mentor"]

/-- Share/publish override keywords. -/
def scribe_keywords : List (List Char) :=
  [txt "post", txt "draft", txt "help me draft", txt "create a post",
   txt "write a post", txt "shareable", txt "public", txt "linkedin",
   txt "social media", txt "announce", txt "acceptance", txt "published",
   txt "share my", txt "share the", txt "news"]

/-- Technical override keywords. -/
def technical_keywords : List (List Char) :=
  [txt "semantic", txt "search", txt "debug", txt "agentic", txt "system",
   txt "code", txt "implementation", txt "algorithm", txt "method", txt "technique"]

/-- Positive override keywords. -/
def positive_keywords : List (List Char) :=
  [txt "swim", txt "talked", txt "discussed", txt "learned", txt "excited",
   txt "happy", txt "great", txt "good"]

/-- Emotional keywords that suppress the technical and positive
overrides. -/
def emotional_keywords_clf : List (List Char) :=
  [txt "struggling", txt "failed", txt "frustrated", txt "anxious",
   txt "worried", txt "stressed", txt "difficult", txt "hard"]

/-- Does any keyword of the table occur in the message? -/
def anyKw (kws : List (List Char)) (m : List Char) : Bool :=
  kws.any (fun kw => contains_sub kw m)

/-- Label extraction from the model reply: substring match against the
labels in source order, defaulting to emotional. -/
def extract_label (response : List Char) : List Char :=
  let r := pyStrip (pyLower response)
  if contains_sub (txt "technical") r then txt "technical"
  else if contains_sub (txt "positive") r ∨ contains_sub (txt "neutral") r then txt "positive"
  else if contains_sub (txt "grant") r ∨ contains_sub (txt "proposal") r then txt "grant"
  else if contains_sub (txt "shareable") r then txt "shareable"
  else if contains_sub (txt "emotional") r ∨ contains_sub (txt "struggle") r ∨
      contains_sub (txt "vent") r then txt "emotional"
  else txt "emotional"

/-- IntentClassifier.classify: the model label (reply = some text), then
the deterministic keyword override in priority order, with the emotional
keywords suppressing the technical and positive overrides only; a raised
model call (reply = none) falls back to the keyword-only decision at low
confidence. -/
def classify (reply : Option (List Char)) (message : List Char) : IntentResult :=
  match reply with
  | some response =>
    let label0 := extract_label response
    let m := pyLower message
    let label :=
      if anyKw grant_keywords m then txt "grant"
      else if anyKw scribe_keywords m then txt "shareable"
      else if anyKw technical_keywords m ∧ ¬ anyKw emotional_keywords_clf m then txt "technical"
      else if anyKw positive_keywords m ∧ ¬ anyKw emotional_keywords_clf m then txt "positive"
      else label0
    { intent := label, confidence := txt "high", raw_response := response }
  | none =>
    let m := pyLower message
    if anyKw [txt "struggling", txt "failed", txt "frustrated", txt "anxious",
        txt "worried"] m then
      { intent := txt "emotional", confidence := txt "low", raw_response := [] }
    else
      { intent := txt "technical", confidence := txt "low", raw_response := [] }

/-- IntentClassifier.get_agent_mode: the fixed intent-to-mode table with
vent as the default. -/
def get_agent_mode (intent : List Char) : List Char :=
  if intent = txt "emotional" then txt "vent"
  else if intent = txt "technical" then txt "pi"
  else if intent = txt "positive" then txt "scribe"
  else if intent = txt "grant" then txt "pi"
  else if intent = txt "shareable" then txt "scribe"
  else txt "vent"

/-! ## Response parser (AgentOrchestrator._parse_agent_response) -/

/-- Metadata dictionary carried in the response envelope. -/
abbrev Metadata : Type := List (List Char × JVal)

/-- Match the marker delimiter, double open bracket, optional whitespace,
the name case-insensitively, optional whitespace, double close bracket;
returns the remainder after the marker. -/
def matchMarker (name : List Char) (s : List Char) : Option (List Char) :=
  match s with
  | '[' :: '[' :: rest =>
    match stripCI name (rest.dropWhile isPySpace) with
    | some rest2 =>
      match rest2.dropWhile isPySpace with
      | ']' :: ']' :: rest4 => some rest4
      | _ => none
    | none => none
  | _ => none

/-- Scan for the first end marker, returning the text before it and the
remainder after it (the lazy group semantics of the dot-star-question
pattern). -/
def findEndMarker (endName : List Char) : Nat → List Char → Option (List Char × List Char)
  | 0, _ => none
  | _ + 1, [] => none
  | fuel + 1, c :: rest =>
    match matchMarker endName (c :: rest) with
    | some after => some ([], after)
    | none => (findEndMarker endName fuel rest).map (fun p => (c :: p.1, p.2))

/-- Model of re.search for the marker-block pattern under IGNORECASE and
DOTALL: the leftmost start marker that is followed by an end marker
yields the match; the result is the whole matched span (group 0) and the
raw text between the markers (group 1 before stripping). -/
def findBlock (name : List Char) : Nat → List Char → Option (List Char × List Char)
  | 0, _ => none
  | _ + 1, [] => none
  | fuel + 1, c :: rest =>
    match matchMarker name (c :: rest) with
    | some afterStart =>
      match findEndMarker (txt "END_" ++ name) afterStart.length afterStart with
      | some (between, afterEnd) =>
        some ((c :: rest).take ((c :: rest).length - afterEnd.length), between)
      | none => findBlock name fuel rest
    | none => findBlock name fuel rest

/-- Code-fence stripping applied to the stripped payload of a marker
block, then a final strip, as in the source. -/
def strip_fences (content : List Char) : List Char :=
  let c1 :=
    if startsWith (txt "```json") content then content.drop 7
    else if startsWith (txt "```") content then content.drop 3
    else content
  let c2 := if endsWith (txt "```") c1 then c1.take (c1.length - 3) else c1
  pyStrip c2

/-- Payload handling of one marker block: strip the payload, strip
fences, slice from the first open brace to the last close brace, and
json.loads the slice.  Results: some (some fields) — the slice parsed as
an object; some none — no brace pair found (the source logs and still
removes the block); none — json.loads (or the dict update on a non-dict)
raised, so the except handler skips the rest of the block processing. -/
def payload_json (between : List Char) : Option (Option (List (List Char × JVal))) :=
  let content := strip_fences (pyStrip between)
  match content.findIdx? (fun c => c = '\x7b'), (content.reverse.findIdx? (fun c => c = '\x7d')) with
  | some si, some rj =>
    let ei := content.length - 1 - rj
    if si < ei then
      let json_str := (content.take (ei + 1)).drop si
      match jsonLoads json_str with
      | some (.jobj fields) => some (some fields)
      | _ => none
    else some none
  | _, _ => some none

/-- Emotional-analysis block pass of _parse_agent_response: on a parsed
payload the fields merge into the metadata and the whole block is removed
from the text (followed by a strip); on a raised parse the handler skips
both the merge and the removal, leaving the block in place. -/
def emotional_step (acc : Metadata × List Char) : Metadata × List Char :=
  let meta := acc.1
  let clean := acc.2
  match findBlock (txt "EMOTIONAL_ANALYSIS") clean.length clean with
  | none => (meta, clean)
  | some (full, between) =>
    match payload_json between with
    | some fieldsOpt =>
      let meta' :=
        match fieldsOpt with
        | some fields => fields.foldl (fun d kv => dictInsert d kv.1 kv.2) meta
        | none => meta
      (meta', pyStrip (replaceAll full clean))
    | none => (meta, clean)

/-- Clarity-score block pass of _parse_agent_response, with the fixed
field-name mapping clarity to clarity_score, logic to logic_score and
focus to critique_focus; removal and failure behaviour as in the
emotional pass. -/
def clarity_step (acc : Metadata × List Char) : Metadata × List Char :=
  let meta := acc.1
  let clean := acc.2
  match findBlock (txt "CLARITY_SCORE") clean.length clean with
  | none => (meta, clean)
  | some (full, between) =>
    match payload_json between with
    | some fieldsOpt =>
      let meta' :=
        match fieldsOpt with
        | some fields =>
          let m1 :=
            match dictGet fields (txt "clarity") with
            | some v => dictInsert meta (txt "clarity_score") v
            | none => meta
          let m2 :=
            match dictGet fields (txt "logic") with
            | some v => dictInsert m1 (txt "logic_score") v
            | none => m1
          match dictGet fields (txt "focus") with
          | some v => dictInsert m2 (txt "critique_focus") v
          | none => m2
        | none => meta
      (meta', pyStrip (replaceAll full clean))
    | none => (meta, clean)

/-- AgentOrchestrator._parse_agent_response: the emotional pass on the
response, then the clarity pass on the cleaned text. -/
def parse_agent_response (response : List Char) : Metadata × List Char :=
  clarity_step (emotional_step ([], response))

/-! ## Semantic matchmaker (src/agents/semantic_matchmaker.py) -/

/-- Apostrophe character, spliced into the persona texts of the
matchmaker and the fixed fallback strings. -/
def apos : List Char := [Char.ofNat 39]

/-- SemanticMatchmakerAgent.is_emotional_struggle: the lexical distress
heuristic over the fixed keyword list. -/
def is_emotional_struggle (message : List Char) : Bool :=
  anyKw
    [txt "struggling", txt "failed", txt "frustrated", txt "anxious",
     txt "worried", txt "stressed", txt "difficult", txt "hard",
     txt "imposter", txt "alone", txt "isolated", txt "rejected",
     txt "disappointed", txt "overwhelmed", txt "burnout", txt "toxic"]
    (pyLower message)

/-- SemanticMatchmakerAgent.find_similar_peers: search with top 3 at
threshold 0.7; any raised exception degrades to the empty list. -/
def find_similar_peers (cosine : List ℚ → List ℚ → ℚ)
    (embedOf : List Char → Option (List ℚ)) (s : VStore)
    (query_text : List Char) : List MatchResult :=
  (search_similar cosine embedOf s query_text 3 q07).getD []

/-- SemanticMatchmakerAgent.format_match_suggestion: the persona text
built around up to three match descriptions. -/
def format_match_suggestion (s : VStore) (ms : List MatchResult) : List Char :=
  if ms.isEmpty then []
  else
    let descs := (ms.take 3).map (fun m =>
      match dictGet s.profiles m.profile_id with
      | some p =>
        match p.academic_stage with
        | some stage =>
          txt "a " ++ stage ++ txt " researcher who " ++ pyLower m.match_reason
        | none => txt "a researcher who " ++ pyLower m.match_reason
      | none => txt "a researcher who " ++ pyLower m.match_reason)
    let middle :=
      match descs with
      | [d] =>
        txt "I found " ++ d ++ txt ". There" ++ apos ++
          txt "s something powerful about knowing someone else has walked this path."
      | [d1, d2] =>
        txt "I found " ++ d1 ++ txt " and " ++ d2 ++
          txt ". You know what? There" ++ apos ++
          txt "s something healing about connecting with others who understand exactly what you" ++
          apos ++ txt "re going through."
      | d1 :: d2 :: d3 :: _ =>
        txt "I found " ++ d1 ++ txt ", " ++ d2 ++ txt ", and " ++ d3 ++
          txt ". You" ++ apos ++ txt "re not the only one who" ++ apos ++
          txt "s felt this way, and there" ++ apos ++ txt "s real power in that connection."
      | [] => []
    let p1 := txt "Oh honey, I hear you. And you know what? You" ++ apos ++
      txt "re not alone in this."
    let p3 := txt "Would you like me to help you connect with them? There" ++ apos ++
      txt "s something beautiful about finding your tribe."
    txt "\n\n" ++ p1 ++ txt " " ++ middle ++ txt " " ++ p3

/-- SemanticMatchmakerAgent.get_matches_data: matches enriched with the
stored profile fields (matches with no stored profile are dropped). -/
def get_matches_data (s : VStore) (ms : List MatchResult) : List JVal :=
  ms.filterMap (fun m =>
    match dictGet s.profiles m.profile_id with
    | some p =>
      let tags := (dictGet p.anonymized_metadata (txt "emotional_tags")).getD (JVal.jarr [])
      some (JVal.jobj
        [(txt "id", JVal.jstr m.profile_id),
         (txt "similarity", JVal.jrat m.similarity_score),
         (txt "reason", JVal.jstr m.match_reason),
         (txt "role", JVal.jstr (p.academic_stage.getD (txt "Researcher"))),
         (txt "area", JVal.jstr (p.research_area.getD (txt "Unknown Field"))),
         (txt "struggle", JVal.jstr p.struggle_text),
         (txt "tags", tags)])
    | none => none)

/-- SemanticMatchmakerAgent.process: skip unless forced or the distress
heuristic fires, then search and format; the result carries the persona
text and the enriched match data. -/
def matchmaker_process (cosine : List ℚ → List ℚ → ℚ)
    (embedOf : List Char → Option (List ℚ)) (s : VStore)
    (message : List Char) (force : Bool) : List Char × List JVal :=
  if ¬ force ∧ ¬ is_emotional_struggle message then ([], [])
  else
    let ms := find_similar_peers cosine embedOf s message
    if ¬ ms.isEmpty then
      (format_match_suggestion s ms, get_matches_data s ms)
    else ([], [])

/-! ## Orchestrator (src/orchestration/agent_orchestrator.py)

process_message is modelled with the external agent generations supplied
in an environment record (each one the text the corresponding model call
returns), the vector store threaded through, and an event trace recording
which agents were invoked.  The model covers an orchestrator constructed
with a vector store, which is how the application wires it. -/

/-- Events recording the external agent invocations process_message
performs. -/
inductive Ev where
  | classifierCall
  | ventCall
  | matchmakerCall
  | piCall
  | scribeCall
  | guardianCall
deriving DecidableEq

/-- Output of VentValidatorAgent.process: either the structured
VentResponse (with response_text and an analysis object) or a plain
string (the degraded path). -/
inductive VentOut where
  | structured (response_text : List Char) (analysis : Metadata)
  | plain (text : List Char)

/-- External-call environment of one process_message run. -/
structure OrchEnv where
  classifierReply : Option (List Char)
  ventOut : VentOut
  piOut : List Char
  scribeOut : List Char
  guardianReply : Option (List Char)
  embedOf : List Char → Option (List ℚ)
  freshId : List Char
  now : List Char

/-- The session fields the modelled paths read. -/
structure Session where
  user_id : List Char
  context : List (List Char × List Char)

/-- The unified response envelope of process_message. -/
structure Envelope where
  main_response : List Char
  peer_matches : List Char
  social_draft : List Char
  guardian_report : Option GuardianReport
  agent_metadata : Metadata
  agent_used : List Char

/-- Envelope of all-empty defaults. -/
def emptyEnvelope : Envelope :=
  { main_response := [], peer_matches := [], social_draft := []
    guardian_report := none, agent_metadata := [], agent_used := [] }

/-- Ordered emotional keyword-to-tag table of
_extract_struggle_metadata. -/
def emotional_tag_table : List (List Char × List Char) :=
  [(txt "frustrated", txt "frustration"), (txt "anxious", txt "anxiety"),
   (txt "worried", txt "anxiety"), (txt "stressed", txt "stress"),
   (txt "imposter", txt "imposter_syndrome"), (txt "alone", txt "isolation"),
   (txt "isolated", txt "isolation"), (txt "rejected", txt "rejection"),
   (txt "disappointed", txt "disappointment"), (txt "overwhelmed", txt "overwhelm"),
   (txt "burnout", txt "burnout"), (txt "toxic", txt "toxic_environment"),
   (txt "failed", txt "failure"), (txt "struggling", txt "struggle")]

/-- Ordered academic-stage keyword table of _extract_struggle_metadata
(first match wins). -/
def stage_table : List (List Char × List Char) :=
  [(txt "1st year", txt "1st year PhD"), (txt "first year", txt "1st year PhD"),
   (txt "2nd year", txt "2nd year PhD"), (txt "second year", txt "2nd year PhD"),
   (txt "3rd year", txt "3rd year PhD"), (txt "third year", txt "3rd year PhD"),
   (txt "4th year", txt "4th year PhD"), (txt "fourth year", txt "4th year PhD"),
   (txt "5th year", txt "5th year PhD"), (txt "fifth year", txt "5th year PhD"),
   (txt "postdoc", txt "Postdoc"), (txt "post-doc", txt "Postdoc"),
   (txt "post doc", txt "Postdoc")]

/-- AgentOrchestrator._extract_struggle_metadata: stage, research area
from the session context, and deduplicated emotional tags. -/
def extract_struggle_metadata (message : List Char) (session : Session) :
    Option (List Char) × Option (List Char) × List (List Char) :=
  let m := pyLower message
  let tags := emotional_tag_table.foldl
    (fun acc kv =>
      if contains_sub kv.1 m ∧ ¬ acc.contains kv.2 then acc ++ [kv.2] else acc) []
  let stage := (stage_table.find? (fun kv => contains_sub kv.1 m)).map (fun kv => kv.2)
  let area := dictGet session.context (txt "research_area")
  (stage, area, tags)

/-- LocalVectorSearch.add_peer_profile_from_session: gated by the
real-user-data flag, the embedding call (a failure returns null), a fresh
user id, provenance metadata, and the ordinary add (null when the add
rejects). -/
def add_peer_profile_from_session (st : Settings) (cosine : List ℚ → List ℚ → ℚ)
    (embedOf : List Char → Option (List ℚ)) (freshId now : List Char) (s : VStore)
    (struggle_text : List Char) (academic_stage research_area : Option (List Char))
    (emotional_tags : List (List Char)) : Option (List Char) × VStore :=
  if ¬ st.enable_real_user_data then (none, s)
  else
    match embedOf struggle_text with
    | none => (none, s)
    | some e =>
      let pid := txt "user_" ++ freshId
      let p : PeerProfile :=
        { profile_id := pid, embedding := e, struggle_text := struggle_text
          academic_stage := academic_stage, research_area := research_area
          anonymized_metadata :=
            [(txt "emotional_tags", JVal.jarr (emotional_tags.map JVal.jstr)),
             (txt "source", JVal.jstr (txt "user_session")),
             (txt "created_at", JVal.jstr now)] }
      let r := add_peer_profile st cosine s p false
      (if r.1 then some pid else none, r.2)

/-- AgentOrchestrator._capture_user_struggle: gated by the
real-user-data flag, then by the classified intent or the distress
heuristic, then the metadata extraction and the session add. -/
def capture_user_struggle (st : Settings) (cosine : List ℚ → List ℚ → ℚ)
    (env : OrchEnv) (s : VStore) (message : List Char) (session : Session)
    (intent : Option (List Char)) : VStore :=
  if ¬ st.enable_real_user_data then s
  else if intent ≠ some (txt "emotional") ∧ ¬ is_emotional_struggle message then s
  else
    let md := extract_struggle_metadata message session
    (add_peer_profile_from_session st cosine env.embedOf env.freshId env.now s
      message md.1 md.2.1 md.2.2).2

/-- Display name of a risk level inside the banner f-string (the str-enum
formats as its value). -/
def risk_name : RiskLevel → List Char
  | .LOW => txt "LOW"
  | .MEDIUM => txt "MEDIUM"
  | .HIGH => txt "HIGH"

/-- The Guardian-alert banner appended when a scan reports blocked. -/
def guardian_banner (r : GuardianReport) : List Char :=
  txt "\n\n⚠️ **Guardian Alert:** " ++ risk_name r.risk_level ++
    txt " risk detected. Concerns: " ++ joinComma r.concerns

/-- Fallback text of the matchmaker mode when no peers matched. -/
def no_match_text : List Char :=
  txt "I couldn" ++ apos ++
    txt "t find any matching peers for your message. Try rephrasing or sharing more details about your research journey."

/-- Default Scribe text when the Scribe produced nothing. -/
def scribe_default_text : List Char :=
  txt "I" ++ apos ++
    txt "m here to help you craft professional content. Share your thoughts and I" ++
    apos ++ txt "ll transform them into shareable stories."

/-- Primary-agent invocation on the Vent Validator: structured output
carries display text and the dumped analysis, plain output only text. -/
def vent_fill (env : OrchEnv) (r : Envelope) : Envelope :=
  match env.ventOut with
  | .structured t a =>
    { r with main_response := t, agent_metadata := a, agent_used := txt "Vent Validator" }
  | .plain t =>
    { r with main_response := t, agent_used := txt "Vent Validator" }

/-- Scribe invocation with the guardian-scan-then-banner step, writing
into the given main field (main_response in scribe mode and the shareable
primary pass, social_draft in the opportunistic third pass). -/
def scribe_fill (env : OrchEnv) (r : Envelope) (asDraft : Bool) :
    Envelope × List Ev :=
  if ¬ env.scribeOut.isEmpty then
    let rep := scan_content env.guardianReply env.scribeOut
    let text := if rep.blocked then env.scribeOut ++ guardian_banner rep else env.scribeOut
    if asDraft then
      ({ r with social_draft := text, guardian_report := some rep },
       [Ev.scribeCall, Ev.guardianCall])
    else
      ({ r with
          main_response := text, guardian_report := some rep,
          agent_used := txt "The Scribe" },
       [Ev.scribeCall, Ev.guardianCall])
  else if asDraft then (r, [Ev.scribeCall])
  else
    ({ r with main_response := scribe_default_text, agent_used := txt "The Scribe" },
     [Ev.scribeCall])

/-- AgentOrchestrator.process_message.  In auto mode the classifier runs
and agent_mode is reassigned to the routed mode before dispatch; the
explicit-mode branches follow; the trailing auto-only section (primary
routing by intent, the peer-matching pass, and the opportunistic scribe
pass) is guarded by agent_mode still being the auto literal.  The result
is the envelope, the trace of agent invocations, and the updated store. -/
def process_message (st : Settings) (cosine : List ℚ → List ℚ → ℚ)
    (env : OrchEnv) (s : VStore) (message : List Char) (session : Session)
    (agent_mode0 : List Char) : Envelope × List Ev × VStore :=
  let r0 := emptyEnvelope
  let cls : Option IntentResult :=
    if agent_mode0 = txt "auto" then some (classify env.classifierReply message)
    else none
  let intent : Option (List Char) := cls.map (fun c => c.intent)
  let agent_mode :=
    match intent with
    | some i => get_agent_mode i
    | none => agent_mode0
  let tr0 := if agent_mode0 = txt "auto" then [Ev.classifierCall] else []
  if agent_mode = txt "vent" then
    let r1 := vent_fill env r0
    let s' := capture_user_struggle st cosine env s message session (some (txt "emotional"))
    (r1, tr0 ++ [Ev.ventCall], s')
  else if agent_mode = txt "matchmaker" then
    let mm := matchmaker_process cosine env.embedOf s message true
    let r1 :=
      if ¬ mm.1.isEmpty then
        { r0 with
          main_response := mm.1, agent_used := txt "Semantic Matchmaker",
          agent_metadata :=
            if ¬ mm.2.isEmpty then dictInsert r0.agent_metadata (txt "matches") (JVal.jarr mm.2)
            else r0.agent_metadata }
      else
        { r0 with main_response := no_match_text, agent_used := txt "Semantic Matchmaker" }
    let s' := capture_user_struggle st cosine env s message session (some (txt "emotional"))
    (r1, tr0 ++ [Ev.matchmakerCall], s')
  else if agent_mode = txt "pi" then
    let parsed := parse_agent_response env.piOut
    ({ r0 with
        main_response := parsed.2, agent_metadata := parsed.1,
        agent_used := txt "PI Simulator" },
     tr0 ++ [Ev.piCall], s)
  else if agent_mode = txt "scribe" then
    let sc := scribe_fill env r0 false
    (sc.1, tr0 ++ sc.2, s)
  else
    let step1 : Envelope × List Ev × VStore :=
      if agent_mode = txt "auto" then
        match intent with
        | some i =>
          if i = txt "emotional" then (vent_fill env r0, tr0 ++ [Ev.ventCall], s)
          else if i = txt "technical" ∨ i = txt "grant" then
            let parsed := parse_agent_response env.piOut
            ({ r0 with
                main_response := parsed.2, agent_metadata := parsed.1,
                agent_used := txt "PI Simulator" },
             tr0 ++ [Ev.piCall], s)
          else if i = txt "shareable" then
            let sc := scribe_fill env r0 false
            (sc.1, tr0 ++ sc.2, s)
          else (vent_fill env r0, tr0 ++ [Ev.ventCall], s)
        | none => (vent_fill env r0, tr0 ++ [Ev.ventCall], s)
      else (r0, tr0, s)
    let step2 : Envelope × List Ev × VStore :=
      if agent_mode = txt "auto" then
        let isEm0 : Bool :=
          match intent with
          | some i => i = txt "emotional"
          | none => false
        let isEm := if ¬ isEm0 then is_emotional_struggle message else isEm0
        if isEm then
          let mm := matchmaker_process cosine env.embedOf step1.2.2 message false
          let r1 := step1.1
          let r2 :=
            if ¬ mm.1.isEmpty then
              let old :=
                match dictGet r1.agent_metadata (txt "matches") with
                | some (.jarr o) => o
                | _ => []
              { r1 with
                peer_matches := mm.1,
                agent_metadata :=
                  dictInsert r1.agent_metadata (txt "matches") (JVal.jarr (old ++ mm.2)) }
            else r1
          let s' := capture_user_struggle st cosine env step1.2.2 message session intent
          (r2, step1.2.1 ++ [Ev.matchmakerCall], s')
        else step1
      else step1
    if agent_mode = txt "auto" ∧ intent ≠ some (txt "shareable") then
      if ¬ env.scribeOut.isEmpty then
        let rep := scan_content env.guardianReply env.scribeOut
        let text := if rep.blocked then env.scribeOut ++ guardian_banner rep else env.scribeOut
        ({ step2.1 with social_draft := text, guardian_report := some rep },
         step2.2.1 ++ [Ev.scribeCall, Ev.guardianCall], step2.2.2)
      else (step2.1, step2.2.1 ++ [Ev.scribeCall], step2.2.2)
    else step2

/-! ## Derived definitions used by the statements -/

/-- A sequence of add_peer_profile calls applied in order. -/
def apply_adds (st : Settings) (cosine : List ℚ → List ℚ → ℚ)
    (ps : List PeerProfile) (skip_deduplication : Bool) (s : VStore) : VStore :=
  ps.foldl (fun acc p => (add_peer_profile st cosine acc p skip_deduplication).2) s

/-- The stringified risk_level the structured phase of scan_content
extracts from a reply, when the phase reaches it: the parsed candidate
object's risk_level value through Python str (before upper-casing). -/
def risk_str_of (response : List Char) : Option (List Char) :=
  match find_candidate response with
  | none => none
  | some cand =>
    match jsonLoads cand with
    | some (.jobj parsed) => (dictGet parsed (txt "risk_level")).map pyStr
    | _ => none

/-- The profile a persisted record reloads to, given the regenerated
embedding (none when the embedding call fails and the record is
skipped). -/
def rec2prof (embedOf : List Char → Option (List ℚ)) (r : PRecord) :
    Option PeerProfile :=
  (embedOf r.struggle_text).map (fun e =>
    { profile_id := r.profile_id, embedding := e
      struggle_text := r.struggle_text
      academic_stage := r.academic_stage
      research_area := r.research_area
      anonymized_metadata := r.anonymized_metadata })

/-! ## Concrete instances used by witnesses and counterexamples

The similarity parameter is instantiated with the plain dot product: on
the unit basis vectors used below the numpy cosine similarity equals the
dot product exactly (the vectors have norm one), so these runs are runs
the deployed code can exhibit. -/

/-- Similarity instance for the concrete runs: one on equal vectors,
zero otherwise.  On the orthonormal embeddings used below this is
exactly the numpy cosine similarity (the cosine of identical unit
vectors is one and of orthogonal unit vectors is zero), and it is
kernel-computable, which rational multiplication is not. -/
def eqSim (a b : List ℚ) : ℚ := if a = b then 1 else 0

/-- A valid profile: id a, unit embedding, twenty characters of text. -/
def profA : PeerProfile :=
  { profile_id := txt "a", embedding := [1, 0]
    struggle_text := txt "aaaaaaaaaaaaaaaaaaaa"
    academic_stage := none, research_area := none, anonymized_metadata := [] }

/-- A valid profile with a distinct id and an embedding orthogonal to
profA. -/
def profB : PeerProfile :=
  { profile_id := txt "b", embedding := [0, 1]
    struggle_text := txt "bbbbbbbbbbbbbbbbbbbb"
    academic_stage := none, research_area := none, anonymized_metadata := [] }

/-- A valid profile sharing the embedding direction of profA (similarity
one under the cosine), with a distinct id. -/
def profC : PeerProfile :=
  { profile_id := txt "c", embedding := [1, 0]
    struggle_text := txt "cccccccccccccccccccc"
    academic_stage := none, research_area := none, anonymized_metadata := [] }

/-- A valid profile carrying the same profile_id as profA but an
orthogonal embedding and different text. -/
def profA2 : PeerProfile :=
  { profile_id := txt "a", embedding := [0, 1]
    struggle_text := txt "yyyyyyyyyyyyyyyyyyyy"
    academic_stage := none, research_area := none, anonymized_metadata := [] }

/-- A store holding exactly profA, as produced by one accepted add. -/
def storeA : VStore :=
  { profiles := [(txt "a", profA)], embeddings := [[1, 0]]
    profile_ids := [txt "a"], additions_since_save := 1
    persisted_data_loaded := true }

/-- A store holding profA and profB. -/
def storeAB : VStore :=
  { profiles := [(txt "a", profA), (txt "b", profB)]
    embeddings := [[1, 0], [0, 1]]
    profile_ids := [txt "a", txt "b"], additions_since_save := 2
    persisted_data_loaded := true }

/-- Embedding stub that succeeds on every text with a fixed unit
vector. -/
def embedConst : List Char → Option (List ℚ) := fun _ => some [1, 0]

/-- The adversarial Guardian reply of the C2 counterexample: the JSON
value spells HIGH through a unicode escape, so the parsed risk string
contains HIGH while the raw reply text does not, and the reply also
contains the literal word MEDIUM. -/
def c2resp : List Char := txt "\x7b\"risk_level\": \"\\u0048IGH\"\x7d MEDIUM"

/-- A Guardian reply whose parsed concerns list holds a non-string, so
pydantic raises at report construction (the scan-body exception case). -/
def c9resp : List Char := txt "\x7b\"risk_level\": \"LOW\", \"concerns\": [1]\x7d"

/-- Agent response whose emotional-analysis block payload is not valid
JSON (the C5 counterexample input). -/
def c5resp : List Char :=
  txt "[[EMOTIONAL_ANALYSIS]] \x7bnot json\x7d [[END_EMOTIONAL_ANALYSIS]] Hello"

/-- Agent response with a well-formed emotional-analysis block followed
by display text. -/
def c5respOk : List Char :=
  txt "[[EMOTIONAL_ANALYSIS]] \x7b\"emotional_spectrum\": \"Anxiety\"\x7d [[END_EMOTIONAL_ANALYSIS]] Hello"

/-- The C6 counterexample message: a technical keyword (debug, code) and
an emotional keyword (struggling), no grant and no share keywords. -/
def c6msg : List Char := txt "struggling to debug my code"

/-- The auto-mode scenario message of the spec. -/
def c1msg : List Char := txt "I am struggling with my research"

/-- Concrete environment for the orchestrator runs: the classifier reply
names the emotional label, every agent returns fixed text, embeddings
succeed. -/
def c1env : OrchEnv :=
  { classifierReply := some (txt "emotional")
    ventOut := VentOut.plain (txt "I hear you")
    piOut := txt "pi reply"
    scribeOut := txt "a draft"
    guardianReply := some (txt "LOW risk")
    embedOf := embedConst
    freshId := txt "abc12345"
    now := txt "2026-01-01T00:00:00" }

/-- Concrete session for the orchestrator runs. -/
def c1session : Session := { user_id := txt "u1", context := [] }

/-- The matched span (group 0) of the emotional-analysis block of
c5respOk. -/
def c5fullOk : List Char :=
  txt "[[EMOTIONAL_ANALYSIS]] \x7b\"emotional_spectrum\": \"Anxiety\"\x7d [[END_EMOTIONAL_ANALYSIS]]"

/-- The raw group 1 (text between the markers) of the emotional-analysis
block of c5respOk. -/
def c5btwOk : List Char :=
  txt " \x7b\"emotional_spectrum\": \"Anxiety\"\x7d "

/-- A well-behaved Guardian reply: the parsed risk string HIGH also
appears literally in the reply text. -/
def c2respOk : List Char := txt "\x7b\"risk_level\": \"HIGH\"\x7d"

/-! ## Association-list dictionary lemmas -/

theorem dictGet_insert_self {V : Type} (l : List (List Char × V)) (k : List Char) (v : V) :
    dictGet (dictInsert l k v) k = some v := by
  induction l with
  | nil => simp [dictInsert, dictGet]
  | cons a t ih =>
    by_cases h : k = a.1
    · simp [dictInsert, dictGet, h]
    · simp [dictInsert, dictGet, h, ih]

theorem dictGet_insert_ne {V : Type} (l : List (List Char × V)) (k k' : List Char)
    (v : V) (h : k ≠ k') : dictGet (dictInsert l k' v) k = dictGet l k := by
  induction l with
  | nil => simp [dictInsert, dictGet, h]
  | cons a t ih =>
    by_cases h2 : k' = a.1
    · subst h2
      simp [dictInsert, dictGet, h]
    · by_cases h3 : k = a.1
      · simp [dictInsert, dictGet, h2, h3]
      · simp [dictInsert, dictGet, h2, h3, ih]

theorem dictInsert_of_not_mem {V : Type} (l : List (List Char × V)) (k : List Char)
    (v : V) (h : k ∉ l.map Prod.fst) : dictInsert l k v = l ++ [(k, v)] := by
  induction l with
  | nil => simp [dictInsert]
  | cons a t ih =>
    simp only [List.map_cons, List.mem_cons] at h
    push_neg at h
    simp [dictInsert, h.1, ih h.2]

theorem dictGet_mem {V : Type} (l : List (List Char × V)) (k : List Char) (v : V)
    (h : dictGet l k = some v) : (k, v) ∈ l := by
  induction l with
  | nil => simp [dictGet] at h
  | cons a t ih =>
    obtain ⟨k', v'⟩ := a
    by_cases h2 : k = k'
    · subst h2
      simp [dictGet] at h
      subst h
      exact List.mem_cons_self _ _
    · simp [dictGet, h2] at h
      exact List.mem_cons_of_mem _ (ih h)

theorem dictGet_append_of_not_mem {V : Type} (l1 l2 : List (List Char × V))
    (k : List Char) (h : k ∉ l1.map Prod.fst) :
    dictGet (l1 ++ l2) k = dictGet l2 k := by
  induction l1 with
  | nil => simp
  | cons a t ih =>
    simp only [List.map_cons, List.mem_cons] at h
    push_neg at h
    simp [dictGet, h.1, ih h.2]

/-! ## Stable descending sort lemmas -/

theorem desc_insert_mem (x : ℚ × Nat) (l : List (ℚ × Nat)) (a : ℚ × Nat) :
    a ∈ desc_insert x l ↔ a = x ∨ a ∈ l := by
  induction l with
  | nil => simp [desc_insert]
  | cons y ys ih =>
    by_cases h : y.1 < x.1
    · simp only [desc_insert, if_pos h, List.mem_cons]
    · simp only [desc_insert, if_neg h, List.mem_cons, ih]
      tauto

theorem desc_insert_sorted (x : ℚ × Nat) (l : List (ℚ × Nat))
    (h : List.Sorted (fun a b : ℚ × Nat => b.1 ≤ a.1) l) :
    List.Sorted (fun a b : ℚ × Nat => b.1 ≤ a.1) (desc_insert x l) := by
  induction l with
  | nil => simp [desc_insert]
  | cons y ys ih =>
    rw [List.sorted_cons] at h
    by_cases hlt : y.1 < x.1
    · rw [desc_insert]
      simp only [if_pos hlt]
      rw [List.sorted_cons]
      constructor
      · intro b hb
        rcases List.mem_cons.mp hb with hb | hb
        · exact hb ▸ le_of_lt hlt
        · exact le_trans (h.1 b hb) (le_of_lt hlt)
      · rw [List.sorted_cons]
        exact h
    · rw [desc_insert]
      simp only [if_neg hlt]
      rw [List.sorted_cons]
      constructor
      · intro b hb
        rcases (desc_insert_mem x ys b).mp hb with hb | hb
        · exact hb ▸ le_of_not_lt hlt
        · exact h.1 b hb
      · exact ih h.2

theorem py_sort_desc_sorted_aux (l acc : List (ℚ × Nat))
    (h : List.Sorted (fun a b : ℚ × Nat => b.1 ≤ a.1) acc) :
    List.Sorted (fun a b : ℚ × Nat => b.1 ≤ a.1)
      (l.foldl (fun acc x => desc_insert x acc) acc) := by
  induction l generalizing acc with
  | nil => simpa
  | cons x xs ih => exact ih _ (desc_insert_sorted x acc h)

theorem py_sort_desc_sorted (l : List (ℚ × Nat)) :
    List.Sorted (fun a b : ℚ × Nat => b.1 ≤ a.1) (py_sort_desc l) :=
  py_sort_desc_sorted_aux l [] (by simp)

theorem py_sort_desc_mem_aux (l acc : List (ℚ × Nat)) (a : ℚ × Nat) :
    a ∈ l.foldl (fun acc x => desc_insert x acc) acc ↔ a ∈ acc ∨ a ∈ l := by
  induction l generalizing acc with
  | nil => simp
  | cons x xs ih =>
    rw [List.foldl_cons, ih, desc_insert_mem]
    simp only [List.mem_cons]
    tauto

theorem py_sort_desc_mem (l : List (ℚ × Nat)) (a : ℚ × Nat) :
    a ∈ py_sort_desc l ↔ a ∈ l := by
  rw [py_sort_desc, py_sort_desc_mem_aux]
  simp

/-! ## Result-construction lemmas -/

theorem build_results_spec (s : VStore) :
    ∀ pairs rs, build_results s pairs = some rs →
      rs.map (fun r => r.similarity_score) = pairs.map Prod.fst ∧
      rs.length = pairs.length := by
  intro pairs
  induction pairs with
  | nil =>
    intro rs h
    simp [build_results] at h
    subst h
    simp
  | cons p t ih =>
    intro rs h
    rw [build_results] at h
    cases hg : s.profile_ids.get? p.2 with
    | none => exact Option.noConfusion (by simpa only [hg] using h)
    | some pid =>
      simp only [hg] at h
      cases hp : dictGet s.profiles pid with
      | none => exact Option.noConfusion (by simpa only [hp] using h)
      | some prof =>
        simp only [hp] at h
        cases hb : build_results s t with
        | none => exact Option.noConfusion (by simpa only [hb] using h)
        | some rs0 =>
          simp only [hb] at h
          simp only [Option.some.injEq] at h
          subst h
          obtain ⟨h1, h2⟩ := ih rs0 hb
          constructor
          · simp [h1]
          · simp [h2]

/-! ## Claim theorems -/

/-- C9: whenever any exception is raised inside the Guardian scan — the
upstream generation failing (gen = none) or the scan body raising (the
none result of scan_body, e.g. pydantic rejecting a parsed non-string
concern) — scan_content returns, rather than propagates, the degraded
report: risk_level MEDIUM, blocked false, and the manual-review
suggestion. -/
theorem c9_guardian_exception_path :
    (∀ content, scan_content none content = exception_report) ∧
    (∀ response content, scan_body response content = none →
      scan_content (some response) content = exception_report) ∧
    exception_report.risk_level = RiskLevel.MEDIUM ∧
    exception_report.blocked = false ∧
    exception_report.suggestions = [txt "Please review content manually"] := by
  refine ⟨fun content => rfl, fun r c h => ?_, rfl, rfl, rfl⟩
  simp [scan_content, h]

/-- Witness for C9 at a concrete reply whose parsed concerns list holds
the number one, making report construction raise. -/
theorem c9_witness :
    scan_content (some c9resp) (txt "x") = exception_report ∧
    scan_content none (txt "x") = exception_report :=
  ⟨c9_guardian_exception_path.2.1 c9resp (txt "x") (by decide),
   c9_guardian_exception_path.1 (txt "x")⟩

/-- C10: with an auto-save interval of at least one, the
additions-since-save counter is strictly below the interval whenever an
add call returns: each accepted add increments it and resets it to zero
on reaching the interval, whether or not the triggered save succeeded
(save_to_json never raises and its result is ignored).  Stated for one
call from any in-range state, for any call sequence from a fresh store,
and for add_profiles_batch. -/
theorem c10_auto_save_counter (st : Settings) (cosine : List ℚ → List ℚ → ℚ)
    (h1 : 1 ≤ st.auto_save_interval) :
    (∀ s p skip, s.additions_since_save < st.auto_save_interval →
      ((add_peer_profile st cosine s p skip).2).additions_since_save <
        st.auto_save_interval) ∧
    (∀ ps skip,
      (apply_adds st cosine ps skip emptyStore).additions_since_save <
        st.auto_save_interval) ∧
    (∀ s ps skip, s.additions_since_save < st.auto_save_interval →
      ((add_profiles_batch st cosine s ps skip).1).additions_since_save <
        st.auto_save_interval) := by
  have step : ∀ s p skip, s.additions_since_save < st.auto_save_interval →
      ((add_peer_profile st cosine s p skip).2).additions_since_save <
        st.auto_save_interval := by
    intro s p skip h
    simp only [add_peer_profile]
    split_ifs
    all_goals
      first
        | exact h
        | (show (0 : Nat) < st.auto_save_interval
           omega)
        | (show s.additions_since_save + 1 < st.auto_save_interval
           omega)
  refine ⟨step, fun ps skip => ?_, fun s ps skip h => ?_⟩
  · have aux : ∀ l (s : VStore), s.additions_since_save < st.auto_save_interval →
        (apply_adds st cosine l skip s).additions_since_save < st.auto_save_interval := by
      intro l
      induction l with
      | nil => intro s h; simpa [apply_adds] using h
      | cons p t ih =>
        intro s h
        have := ih ((add_peer_profile st cosine s p skip).2) (step s p skip h)
        simpa [apply_adds, List.foldl_cons] using this
    exact aux ps emptyStore (by simpa [emptyStore] using h1)
  · have aux : ∀ (l : List PeerProfile) (acc : VStore × Nat),
        acc.1.additions_since_save < st.auto_save_interval →
        ((l.foldl (fun (acc : VStore × Nat) p =>
            let r := add_peer_profile st cosine acc.1 p skip
            (r.2, if r.1 then acc.2 + 1 else acc.2)) acc).1).additions_since_save <
          st.auto_save_interval := by
      intro l
      induction l with
      | nil => intro acc h; simpa using h
      | cons p t ih =>
        intro acc h
        have := ih ((add_peer_profile st cosine acc.1 p skip).2,
          if (add_peer_profile st cosine acc.1 p skip).1 then acc.2 + 1 else acc.2)
          (step acc.1 p skip h)
        simpa [List.foldl_cons] using this
    have hfold := aux ps (s, 0) h
    simp only [add_profiles_batch]
    split_ifs with hc
    · simpa using h1
    · exact hfold

/-- Witness for C10: a two-add sequence from a fresh store at the default
interval keeps the counter below the interval. -/
theorem c10_witness :
    (apply_adds defaultSettings eqSim [profA, profB] false
      emptyStore).additions_since_save < defaultSettings.auto_save_interval :=
  (c10_auto_save_counter defaultSettings eqSim (by decide)).2.1 [profA, profB] false

/-- C8 counterexample: a second accepted add that carries the profile_id
of an already-accepted profile (distinct text, orthogonal embedding)
replaces it in the profile dict, so the store no longer maps that id to
the first profile — the add is accepted and the stored struggle text is
the second profile's. -/
theorem c8_counterexample :
    (add_peer_profile defaultSettings eqSim
        (add_peer_profile defaultSettings eqSim emptyStore profA false).2
        profA2 false).1 = true ∧
    ((dictGet (add_peer_profile defaultSettings eqSim
        (add_peer_profile defaultSettings eqSim emptyStore profA false).2
        profA2 false).2.profiles (txt "a")).map (fun r => r.struggle_text)) =
      some profA2.struggle_text ∧
    profA2.struggle_text ≠ profA.struggle_text := by decide

/-- C8 amended: once accepted, a profile survives every later
add_peer_profile call whose profile carries a different profile_id; a
later accepted add with the same id replaces the dict entry (the
counterexample), so the no-overwrite guarantee holds exactly up to id
distinctness. -/
theorem c8_no_silent_overwrite (st : Settings) (cosine : List ℚ → List ℚ → ℚ)
    (s : VStore) (p q : PeerProfile) (skip : Bool)
    (hp : dictGet s.profiles p.profile_id = some p)
    (hne : q.profile_id ≠ p.profile_id) :
    dictGet ((add_peer_profile st cosine s q skip).2).profiles p.profile_id = some p := by
  simp only [add_peer_profile]
  split_ifs
  all_goals
    first
      | exact hp
      | simpa [dictGet_insert_ne _ _ _ _ (Ne.symm hne)] using hp

/-- Witness for C8 at a concrete store and a distinct-id add. -/
theorem c8_witness :
    dictGet ((add_peer_profile defaultSettings eqSim storeA profB false).2).profiles
      profA.profile_id = some profA :=
  c8_no_silent_overwrite defaultSettings eqSim storeA profA profB false rfl (by decide)

/-- Shape of one accepted add into a fresh store: the profile dict holds
exactly that profile, its embedding and id are recorded, and the counter
advanced (resetting when the interval is one). -/
theorem add_to_emptyStore (st : Settings) (cosine : List ℚ → List ℚ → ℚ)
    (p : PeerProfile) (h : validate_profile st p = true) :
    add_peer_profile st cosine emptyStore p false =
      (true,
        { profiles := [(p.profile_id, p)], embeddings := [p.embedding]
          profile_ids := [p.profile_id]
          additions_since_save := if st.auto_save_interval ≤ 1 then 0 else 1
          persisted_data_loaded := false }) := by
  simp only [add_peer_profile, h, is_duplicate, emptyStore]
  norm_num [dictInsert]
  split_ifs <;> rfl

/-- C4: with deduplication enabled, the first valid profile is accepted
into a fresh store; a second valid profile with a distinct id is rejected
(returning false, store unchanged, one stored profile) exactly when its
embedding's similarity to the first is at least the deduplication
threshold, and accepted (both stored) when it is below; in general a
rejected add returns false and does not mutate the store.  Validity means
the validation rule of the store plus the id uniqueness the data model
requires of distinct profiles. -/
theorem c4_deduplication (st : Settings) (cosine : List ℚ → List ℚ → ℚ)
    (p1 p2 : PeerProfile)
    (h1 : validate_profile st p1 = true) (h2 : validate_profile st p2 = true)
    (hid : p1.profile_id ≠ p2.profile_id) :
    ((add_peer_profile st cosine emptyStore p1 false).1 = true) ∧
    ((add_peer_profile st cosine emptyStore p1 false).2.profiles =
      [(p1.profile_id, p1)]) ∧
    (st.deduplication_threshold ≤ cosine p2.embedding p1.embedding →
      (add_peer_profile st cosine
          (add_peer_profile st cosine emptyStore p1 false).2 p2 false).1 = false ∧
      (add_peer_profile st cosine
          (add_peer_profile st cosine emptyStore p1 false).2 p2 false).2 =
        (add_peer_profile st cosine emptyStore p1 false).2) ∧
    (cosine p2.embedding p1.embedding < st.deduplication_threshold →
      (add_peer_profile st cosine
          (add_peer_profile st cosine emptyStore p1 false).2 p2 false).1 = true ∧
      (add_peer_profile st cosine
          (add_peer_profile st cosine emptyStore p1 false).2 p2 false).2.profiles =
        [(p1.profile_id, p1), (p2.profile_id, p2)]) ∧
    (∀ s q skip, (add_peer_profile st cosine s q skip).1 = false →
      (add_peer_profile st cosine s q skip).2 = s) := by
  have hfst := add_to_emptyStore st cosine p1 h1
  refine ⟨by rw [hfst], ?_, ?_, ?_, ?_⟩
  · rw [hfst]
  · intro hsim
    rw [hfst]
    have hdup : is_duplicate st cosine
        { profiles := [(p1.profile_id, p1)], embeddings := [p1.embedding]
          profile_ids := [p1.profile_id]
          additions_since_save := if st.auto_save_interval ≤ 1 then 0 else 1
          persisted_data_loaded := false } p2 = true := by
      simp [is_duplicate, hsim]
    simp [add_peer_profile, h2, hdup]
  · intro hsim
    rw [hfst]
    have hdup : is_duplicate st cosine
        { profiles := [(p1.profile_id, p1)], embeddings := [p1.embedding]
          profile_ids := [p1.profile_id]
          additions_since_save := if st.auto_save_interval ≤ 1 then 0 else 1
          persisted_data_loaded := false } p2 = false := by
      simp [is_duplicate, not_le.mpr hsim]
    have hins : dictInsert [(p1.profile_id, p1)] p2.profile_id p2 =
        [(p1.profile_id, p1), (p2.profile_id, p2)] := by
      simp [dictInsert, Ne.symm hid]
    constructor
    · simp only [add_peer_profile, h2, hdup]
      split_ifs with hA hB hC <;>
        first
          | exact (hA trivial).elim
          | exact (hA rfl).elim
          | exact hB.2
          | exact hB.2.elim
          | rfl
    · simp only [add_peer_profile, h2, hdup]
      split_ifs with hA hB hC <;>
        first
          | exact (hA trivial).elim
          | exact (hA rfl).elim
          | exact hB.2
          | exact hB.2.elim
          | simp [hins]
  · intro s q skip hfalse
    by_cases hv : validate_profile st q = true
    · by_cases hd : (¬ skip ∧ is_duplicate st cosine s q) 
      · simp [add_peer_profile, hv, hd]
      · exfalso
        simp only [add_peer_profile, hv, hd] at hfalse
        split_ifs at hfalse <;> simp_all
    · simp [add_peer_profile, hv]

/-- Witness for C4: profA accepted into a fresh store; profC (similarity
one to profA, at least the 0.95 default threshold) rejected with the
store unchanged at one profile. -/
theorem c4_witness :
    ((add_peer_profile defaultSettings eqSim emptyStore profA false).1 = true) ∧
    ((add_peer_profile defaultSettings eqSim
        (add_peer_profile defaultSettings eqSim emptyStore profA false).2
        profC false).1 = false) ∧
    ((add_peer_profile defaultSettings eqSim
        (add_peer_profile defaultSettings eqSim emptyStore profA false).2
        profC false).2.profiles.length = 1) := by
  obtain ⟨w1, w2, w3, _, _⟩ :=
    c4_deduplication defaultSettings eqSim profA profC (by decide) (by decide) (by decide)
  refine ⟨w1, (w3 (by decide)).1, ?_⟩
  rw [(w3 (by decide)).2, w2]
  rfl

/-- C3: search_similar returns its results sorted by similarity in
non-increasing order, every returned similarity clears the threshold,
at most top_k results come back, and a store with no embeddings yields
the empty list before any embedding call.  The some hypothesis is the
call returning normally (an embedding failure propagates instead). -/
theorem c3_search_ordering (cosine : List ℚ → List ℚ → ℚ)
    (embedOf : List Char → Option (List ℚ)) (s : VStore)
    (q : List Char) (k : Nat) (θ : ℚ) :
    (s.embeddings = [] → search_similar cosine embedOf s q k θ = some []) ∧
    (∀ l, search_similar cosine embedOf s q k θ = some l →
      List.Sorted (fun a b : MatchResult => b.similarity_score ≤ a.similarity_score) l ∧
      (∀ r ∈ l, θ ≤ r.similarity_score) ∧
      l.length ≤ k) := by
  constructor
  · intro h
    simp [search_similar, h]
  · intro l hl
    by_cases hemb : s.embeddings = []
    · have hnil : l = [] := by
        simpa [search_similar, hemb] using hl
      subst hnil
      simp
    · cases hq : embedOf q with
      | none => simp [search_similar, hemb, hq] at hl
      | some qe =>
        have hl2 : build_results s
            ((py_sort_desc (s.embeddings.enum.filterMap
              (fun ie => if θ ≤ cosine qe ie.2 then
                some (cosine qe ie.2, ie.1) else none))).take k) = some l := by
          have : search_cosine cosine s qe k θ = some l := by
            simpa [search_similar, hemb, hq] using hl
          exact this
        have hspec := build_results_spec s _ l hl2
        have hsorted_pairs : List.Sorted (fun a b : ℚ × Nat => b.1 ≤ a.1)
            ((py_sort_desc (s.embeddings.enum.filterMap
              (fun ie => if θ ≤ cosine qe ie.2 then
                some (cosine qe ie.2, ie.1) else none))).take k) :=
          List.Pairwise.sublist (List.take_sublist k _)
            (py_sort_desc_sorted _)
        refine ⟨?_, ?_, ?_⟩
        · have h1 : List.Pairwise (fun a b : ℚ => b ≤ a)
              ((((py_sort_desc (s.embeddings.enum.filterMap
                (fun ie => if θ ≤ cosine qe ie.2 then
                  some (cosine qe ie.2, ie.1) else none))).take k)).map Prod.fst) :=
            List.pairwise_map.mpr hsorted_pairs
          rw [← hspec.1] at h1
          exact List.pairwise_map.mp h1
        · intro r hr
          have hmem : r.similarity_score ∈ l.map (fun r => r.similarity_score) :=
            List.mem_map_of_mem _ hr
          rw [hspec.1] at hmem
          obtain ⟨p, hp, hpe⟩ := List.mem_map.mp hmem
          have hp2 : p ∈ py_sort_desc (s.embeddings.enum.filterMap
              (fun ie => if θ ≤ cosine qe ie.2 then
                some (cosine qe ie.2, ie.1) else none)) :=
            List.take_subset k _ hp
          have hp3 := (py_sort_desc_mem _ p).mp hp2
          obtain ⟨ie, _, hf⟩ := List.mem_filterMap.mp hp3
          by_cases hθ : θ ≤ cosine qe ie.2
          · rw [if_pos hθ] at hf
            cases hf
            rw [← hpe]
            exact hθ
          · rw [if_neg hθ] at hf
            cases hf
        · rw [hspec.2]
          exact List.length_take_le _ _

/-- Witness for C3: the one-profile store returns its single match and
the empty store returns the empty list, through the theorem. -/
theorem c3_witness :
    (search_similar eqSim embedConst emptyStore (txt "anything") 5 q07 = some []) ∧
    (∀ l, search_similar eqSim embedConst storeA (txt "anything") 5 q07 = some l →
      l.length ≤ 5) := by
  refine ⟨(c3_search_ordering eqSim embedConst emptyStore (txt "anything") 5 q07).1 rfl,
    fun l hl => ((c3_search_ordering eqSim embedConst storeA (txt "anything") 5 q07).2 l hl).2.2⟩

/-- Specification of the reload loop: with every embedding regeneration
succeeding, distinct record ids, and ids fresh for the accumulator, the
loop appends exactly one reloaded profile per record, keyed by its id,
and leaves other keys untouched. -/
theorem load_records_spec (embedOf : List Char → Option (List ℚ)) :
    ∀ (records : List PRecord) (acc : VStore),
      (∀ r ∈ records, (embedOf r.struggle_text).isSome = true) →
      (records.map (fun r => r.profile_id)).Nodup →
      (∀ r ∈ records, r.profile_id ∉ acc.profiles.map Prod.fst) →
      ((load_records embedOf records acc).profiles.map Prod.fst =
        acc.profiles.map Prod.fst ++ records.map (fun r => r.profile_id)) ∧
      (∀ r ∈ records,
        dictGet (load_records embedOf records acc).profiles r.profile_id =
          rec2prof embedOf r) ∧
      (∀ kk, kk ∉ records.map (fun r => r.profile_id) →
        dictGet (load_records embedOf records acc).profiles kk =
          dictGet acc.profiles kk) := by
  intro records
  induction records with
  | nil =>
    intro acc _ _ _
    exact ⟨by simp [load_records], by simp, fun kk _ => by simp [load_records]⟩
  | cons r rest ih =>
    intro acc hall hnd hdisj
    obtain ⟨e, he⟩ : ∃ e, embedOf r.struggle_text = some e := by
      have hs := hall r (List.mem_cons_self r rest)
      cases h : embedOf r.struggle_text with
      | none => rw [h] at hs; simp at hs
      | some e => exact ⟨e, rfl⟩
    have hfresh : r.profile_id ∉ acc.profiles.map Prod.fst :=
      hdisj r (List.mem_cons_self r rest)
    have hcons : (r.profile_id :: rest.map (fun r => r.profile_id)).Nodup := by
      simpa using hnd
    have hnd1 : r.profile_id ∉ rest.map (fun r => r.profile_id) :=
      (List.nodup_cons.mp hcons).1
    have hnd2 : (rest.map (fun r => r.profile_id)).Nodup :=
      (List.nodup_cons.mp hcons).2
    have hstep : load_records embedOf (r :: rest) acc =
        load_records embedOf rest
          { acc with
            profiles := dictInsert acc.profiles r.profile_id
              { profile_id := r.profile_id, embedding := e
                struggle_text := r.struggle_text
                academic_stage := r.academic_stage
                research_area := r.research_area
                anonymized_metadata := r.anonymized_metadata }
            embeddings := acc.embeddings ++ [e]
            profile_ids := acc.profile_ids ++ [r.profile_id] } := by
      simp only [load_records, he]
    have hkeys' :
        ({ acc with
            profiles := dictInsert acc.profiles r.profile_id
              { profile_id := r.profile_id, embedding := e
                struggle_text := r.struggle_text
                academic_stage := r.academic_stage
                research_area := r.research_area
                anonymized_metadata := r.anonymized_metadata }
            embeddings := acc.embeddings ++ [e]
            profile_ids := acc.profile_ids ++ [r.profile_id] } : VStore).profiles.map
          Prod.fst = acc.profiles.map Prod.fst ++ [r.profile_id] := by
      simp [dictInsert_of_not_mem _ _ _ hfresh]
    have hdisj' : ∀ r' ∈ rest, r'.profile_id ∉
        ({ acc with
            profiles := dictInsert acc.profiles r.profile_id
              { profile_id := r.profile_id, embedding := e
                struggle_text := r.struggle_text
                academic_stage := r.academic_stage
                research_area := r.research_area
                anonymized_metadata := r.anonymized_metadata }
            embeddings := acc.embeddings ++ [e]
            profile_ids := acc.profile_ids ++ [r.profile_id] } : VStore).profiles.map
          Prod.fst := by
      intro r' hr'
      rw [hkeys']
      simp only [List.mem_append, List.mem_singleton]
      push_neg
      refine ⟨hdisj r' (List.mem_cons_of_mem r hr'), ?_⟩
      intro hcontra
      exact hnd1 (hcontra ▸ List.mem_map_of_mem (fun r => r.profile_id) hr')
    obtain ⟨ihkeys, ihget, ihother⟩ := ih _
      (fun r' h => hall r' (List.mem_cons_of_mem r h)) hnd2 hdisj'
    refine ⟨?_, ?_, ?_⟩
    · rw [hstep, ihkeys, hkeys']
      simp
    · intro r' hr'
      rcases List.mem_cons.mp hr' with h | h
      · subst h
        rw [hstep, ihother r'.profile_id hnd1, dictGet_insert_self]
        simp [rec2prof, he]
      · rw [hstep]
        exact ihget r' h
    · intro kk hkk
      simp only [List.map_cons, List.mem_cons] at hkk
      push_neg at hkk
      rw [hstep, ihother kk hkk.2]
      exact dictGet_insert_ne _ _ _ _ hkk.1

/-- C7: saving a store (each profile serialized without its embedding)
and reloading the saved records into a fresh store, with every embedding
regeneration succeeding, reproduces the same profile ids with the same
struggle text, academic stage and research area per profile; the
reloaded embedding is exactly the regenerated one, since the persisted
record has no embedding field to restore.  The two store hypotheses are
invariants of every store the code builds: the dict key of a profile is
its profile_id, and keys are unique. -/
theorem c7_persistence_roundtrip (embedOf : List Char → Option (List ℚ))
    (s : VStore)
    (hkeys : ∀ kv ∈ s.profiles, kv.1 = kv.2.profile_id)
    (hnd : (s.profiles.map Prod.fst).Nodup)
    (hall : ∀ r ∈ save_profiles s, (embedOf r.struggle_text).isSome = true) :
    ((load_persisted_data embedOf (save_profiles s) emptyStore).profiles.map
        Prod.fst = s.profiles.map Prod.fst) ∧
    (∀ pid p, dictGet s.profiles pid = some p →
      ∃ p', dictGet (load_persisted_data embedOf (save_profiles s)
          emptyStore).profiles pid = some p' ∧
        p'.struggle_text = p.struggle_text ∧
        p'.academic_stage = p.academic_stage ∧
        p'.research_area = p.research_area ∧
        embedOf p.struggle_text = some p'.embedding) := by
  have hidmap : (save_profiles s).map (fun r => r.profile_id) =
      s.profiles.map Prod.fst := by
    rw [save_profiles, List.map_map]
    exact (List.map_congr_left (fun kv hkv => (hkeys kv hkv).symm))
  by_cases hempty : s.profiles = []
  · constructor
    · simp [load_persisted_data, save_profiles, hempty, emptyStore]
    · intro pid p hp
      rw [hempty] at hp
      simp [dictGet] at hp
  · have hne : ¬ (save_profiles s).isEmpty := by
      simp [save_profiles, List.isEmpty_iff, hempty]
    have hload : load_persisted_data embedOf (save_profiles s) emptyStore =
        { load_records embedOf (save_profiles s) emptyStore with
          persisted_data_loaded := true } := by
      simp [load_persisted_data, emptyStore, hne]
    obtain ⟨lkeys, lget, _⟩ := load_records_spec embedOf (save_profiles s) emptyStore
      hall (by rw [hidmap]; exact hnd) (by intro r _; simp [emptyStore])
    constructor
    · rw [hload]
      show (load_records embedOf (save_profiles s) emptyStore).profiles.map
        Prod.fst = s.profiles.map Prod.fst
      rw [lkeys, hidmap]
      simp [emptyStore]
    · intro pid p hp
      have hmem := dictGet_mem _ _ _ hp
      have hpid : pid = p.profile_id := hkeys (pid, p) hmem
      have hrec : ({ profile_id := p.profile_id,
                     struggle_text := p.struggle_text,
                     academic_stage := p.academic_stage,
                     research_area := p.research_area,
                     anonymized_metadata := p.anonymized_metadata } : PRecord) ∈
          save_profiles s := by
        rw [save_profiles]
        exact List.mem_map_of_mem _ hmem
      have hgot := lget _ hrec
      obtain ⟨e, he⟩ : ∃ e, embedOf p.struggle_text = some e := by
        have hs := hall _ hrec
        cases h : embedOf p.struggle_text with
        | none => rw [h] at hs; simp at hs
        | some e => exact ⟨e, rfl⟩
      refine ⟨{ profile_id := p.profile_id, embedding := e,
                struggle_text := p.struggle_text,
                academic_stage := p.academic_stage,
                research_area := p.research_area,
                anonymized_metadata := p.anonymized_metadata }, ?_, rfl, rfl, rfl, he⟩
      rw [hload]
      show dictGet (load_records embedOf (save_profiles s) emptyStore).profiles
        pid = _
      rw [hpid, hgot]
      simp [rec2prof, he]

/-- Witness for C7 at the two-profile store with a constant embedding
stub. -/
theorem c7_witness :
    ((load_persisted_data embedConst (save_profiles storeAB)
        emptyStore).profiles.map Prod.fst = storeAB.profiles.map Prod.fst) ∧
    (∃ p', dictGet (load_persisted_data embedConst (save_profiles storeAB)
        emptyStore).profiles (txt "a") = some p' ∧
      p'.struggle_text = profA.struggle_text) := by
  obtain ⟨w1, w2⟩ := c7_persistence_roundtrip embedConst storeAB
    (by decide) (by decide) (by intro r _; rfl)
  refine ⟨w1, ?_⟩
  obtain ⟨p', hp', hst, _⟩ := w2 (txt "a") profA rfl
  exact ⟨p', hp', hst⟩

/-- Structured-phase invariant: blocked and HIGH are set together, and a
set blocked flag means the parsed risk string contained HIGH. -/
theorem json_phase_spec (response : List Char) :
    ((json_phase response).blocked = true ↔
      (json_phase response).risk = RiskLevel.HIGH) ∧
    ((json_phase response).blocked = true →
      ∃ rs, risk_str_of response = some rs ∧
        contains_sub (txt "HIGH") (pyUpper rs) = true) := by
  rw [json_phase, risk_str_of]
  rcases hc : find_candidate response with _ | cand
  · simp [hc]
  · rcases hj : jsonLoads cand with _ | v
    · simp [hc, hj]
    · cases v with
      | jstr s => simp [hc, hj]
      | jnum raw => simp [hc, hj]
      | jbool b => simp [hc, hj]
      | jnull => simp [hc, hj]
      | jarr elems => simp [hc, hj]
      | jrat qv => simp [hc, hj]
      | jobj parsed =>
        rcases hr : dictGet parsed (txt "risk_level") with _ | rv
        · simp [hc, hj, hr]
        · by_cases hH : contains_sub (txt "HIGH") (pyUpper (pyStr rv)) = true
          · simp only [hc, hj, hr, hH, if_true]
            refine ⟨by simp, fun _ => ⟨pyStr rv, by simp, hH⟩⟩
          · by_cases hM : contains_sub (txt "MEDIUM") (pyUpper (pyStr rv)) = true
            · simp [hc, hj, hr, hH, hM]
            · simp [hc, hj, hr, hH, hM]

/-- Fallback-phase preservation of the blocked-iff-HIGH invariant, given
that a set blocked flag is witnessed by a literal HIGH in the raw reply
(which rules out the downgrade-to-MEDIUM branch firing while blocked). -/
theorem fallback_phase_spec (response content : List Char) (st : ScanState)
    (hiff : st.blocked = true ↔ st.risk = RiskLevel.HIGH)
    (hH : st.blocked = true → contains_sub (txt "HIGH") (pyUpper response) = true) :
    ((fallback_phase response content st).blocked = true ↔
      (fallback_phase response content st).risk = RiskLevel.HIGH) := by
  rw [fallback_phase]
  by_cases hce : st.concernsJ.isEmpty
  · simp only [hce, if_true]
    by_cases hA : contains_sub (txt "HIGH") (pyUpper response) = true
    · simp [hA]
    · by_cases hB : contains_sub (txt "MEDIUM") (pyUpper response) = true
      · simp only [hA, hB]
        norm_num
        constructor
        · intro hb
          exact absurd (hH hb) hA
        · intro habs
          exact RiskLevel.noConfusion habs
      · simpa [hA, hB] using hiff
  · simpa [hce] using hiff

/-- Fallback-phase preservation of the two unconditional directions:
blocked never coexists with LOW, and HIGH always blocks. -/
theorem fallback_phase_weak (response content : List Char) (st : ScanState)
    (h1 : st.blocked = true → st.risk ≠ RiskLevel.LOW)
    (h2 : st.risk = RiskLevel.HIGH → st.blocked = true) :
    ((fallback_phase response content st).blocked = true →
      (fallback_phase response content st).risk ≠ RiskLevel.LOW) ∧
    ((fallback_phase response content st).risk = RiskLevel.HIGH →
      (fallback_phase response content st).blocked = true) := by
  rw [fallback_phase]
  by_cases hce : st.concernsJ.isEmpty
  · simp only [hce, if_true]
    by_cases hA : contains_sub (txt "HIGH") (pyUpper response) = true
    · simp [hA]
    · by_cases hB : contains_sub (txt "MEDIUM") (pyUpper response) = true
      · simp only [hA, hB]
        norm_num
        constructor
        · intro _
          exact fun habs => RiskLevel.noConfusion habs
        · intro habs
          exact absurd habs (by intro hx; exact RiskLevel.noConfusion hx)
      · simpa [hA, hB] using ⟨h1, h2⟩
  · simpa [hce] using ⟨h1, h2⟩

/-- Report assembly changes only the concern list: the returned risk
level and blocked flag are those of the scan state. -/
theorem scan_body_rb (response content : List Char) :
    ∀ rep, scan_body response content = some rep →
      rep.blocked = (fallback_phase response content (json_phase response)).blocked ∧
      rep.risk_level = (fallback_phase response content (json_phase response)).risk := by
  intro rep h
  simp only [scan_body] at h
  rcases hc1 : jStrList (fallback_phase response content (json_phase response)).concernsJ
    with _ | cs
  · rw [hc1] at h
    exact Option.noConfusion h
  · rw [hc1] at h
    rcases hc2 : jStrList (if (fallback_phase response content (json_phase response)).blocked =
        true ∧ (fallback_phase response content (json_phase response)).suggestionsJ.isEmpty = true
      then (fallback_phase response content (json_phase response)).suggestionsJ ++
        [JVal.jstr (txt "Remove specific reagent names, sequences, or institution identifiers")]
      else (fallback_phase response content (json_phase response)).suggestionsJ) with _ | ss
    · rw [hc2] at h
      exact Option.noConfusion h
    · rw [hc2] at h
      simp only [Option.some.injEq] at h
      subst h
      constructor <;> split_ifs <;> rfl

/-- C2 amended: risk_level HIGH always comes with blocked true, and a
blocked report is never LOW; the full equivalence blocked iff HIGH holds
for every reply whose parsed risk string, when it contains HIGH, also
contains HIGH literally (case-insensitively) in the raw reply text — the
counterexample shows a JSON-escaped HIGH plus a literal MEDIUM breaks
the equivalence.  The parsed blocked field is never read: json_phase
inspects only risk_level, concerns, suggestions and detected_items. -/
theorem c2_blocked_iff_high (response content : List Char)
    (H : ∀ rs, risk_str_of response = some rs →
      contains_sub (txt "HIGH") (pyUpper rs) = true →
      contains_sub (txt "HIGH") (pyUpper response) = true) :
    ((scan_content (some response) content).blocked = true ↔
      (scan_content (some response) content).risk_level = RiskLevel.HIGH) ∧
    (∀ gen, ((scan_content gen content).risk_level = RiskLevel.HIGH →
        (scan_content gen content).blocked = true) ∧
      ((scan_content gen content).blocked = true →
        (scan_content gen content).risk_level ≠ RiskLevel.LOW)) := by
  have hjson := json_phase_spec response
  have hH2 : (json_phase response).blocked = true →
      contains_sub (txt "HIGH") (pyUpper response) = true := by
    intro hb
    obtain ⟨rs, hrs, hhi⟩ := hjson.2 hb
    exact H rs hrs hhi
  have hiff2 := fallback_phase_spec response content (json_phase response) hjson.1 hH2
  constructor
  · rw [scan_content]
    cases hsb : scan_body response content with
    | none => simp [exception_report]
    | some rep =>
      obtain ⟨hb, hr⟩ := scan_body_rb response content rep hsb
      simp only [Option.getD_some]
      rw [hb, hr]
      exact hiff2
  · intro gen
    cases gen with
    | none =>
      constructor
      · intro habs
        exact absurd habs (by simp [scan_content, exception_report])
      · intro habs
        exact absurd habs (by simp [scan_content, exception_report])
    | some resp2 =>
      have hjson2 := json_phase_spec resp2
      have hweak := fallback_phase_weak resp2 content (json_phase resp2)
        (fun hb => by
          rw [hjson2.1.mp hb]
          exact fun hx => RiskLevel.noConfusion hx)
        (fun hr => hjson2.1.mpr hr)
      rw [scan_content]
      cases hsb : scan_body resp2 content with
      | none =>
        constructor
        · intro habs
          exact absurd habs (by simp [exception_report])
        · intro habs
          exact absurd habs (by simp [exception_report])
      | some rep =>
        obtain ⟨hb, hr⟩ := scan_body_rb resp2 content rep hsb
        simp only [Option.getD_some]
        rw [hb, hr]
        exact ⟨hweak.2, hweak.1⟩

/-- C2 counterexample: on the reply whose JSON value spells HIGH through
a unicode escape while the raw text carries a literal MEDIUM, the scan
returns blocked = true with risk_level MEDIUM, refuting blocked iff
HIGH. -/
theorem c2_counterexample :
    (scan_content (some c2resp) (txt "hello world")).blocked = true ∧
    (scan_content (some c2resp) (txt "hello world")).risk_level = RiskLevel.MEDIUM ∧
    ¬ ((scan_content (some c2resp) (txt "hello world")).blocked = true ↔
      (scan_content (some c2resp) (txt "hello world")).risk_level = RiskLevel.HIGH) := by
  decide

/-- Witness for C2 at a reply that spells HIGH literally. -/
theorem c2_witness :
    (scan_content (some c2respOk) (txt "x")).blocked = true ↔
      (scan_content (some c2respOk) (txt "x")).risk_level = RiskLevel.HIGH :=
  (c2_blocked_iff_high c2respOk (txt "x")
    (fun _ _ _ => by decide)).1

/-- C5 amended: the parser never raises (it is a total function built
from the two passes), and each marker block is removed from the text —
markers included — exactly when its payload processing does not raise:
on a parsed payload, and also when no JSON object braces are found, the
whole matched span is removed and the text stripped; when json.loads
raises on the brace-delimited slice, the except handler skips both the
metadata merge and the removal, leaving the block in the returned
text. -/
theorem c5_block_removal (response : List Char) :
    (parse_agent_response response =
      clarity_step (emotional_step ([], response))) ∧
    (findBlock (txt "EMOTIONAL_ANALYSIS") response.length response = none →
      emotional_step ([], response) = ([], response)) ∧
    (∀ full between,
      findBlock (txt "EMOTIONAL_ANALYSIS") response.length response =
        some (full, between) →
      ((payload_json between).isSome = true →
        (emotional_step ([], response)).2 = pyStrip (replaceAll full response)) ∧
      (payload_json between = none →
        emotional_step ([], response) = ([], response))) ∧
    (∀ meta clean full between,
      findBlock (txt "CLARITY_SCORE") clean.length clean = some (full, between) →
      ((payload_json between).isSome = true →
        (clarity_step (meta, clean)).2 = pyStrip (replaceAll full clean)) ∧
      (payload_json between = none →
        clarity_step (meta, clean) = (meta, clean))) := by
  refine ⟨rfl, ?_, ?_, ?_⟩
  · intro h
    simp [emotional_step, h]
  · intro full between h
    constructor
    · intro hs
      rcases hp : payload_json between with _ | fo
      · rw [hp] at hs
        simp at hs
      · simp [emotional_step, h, hp]
    · intro hp
      simp [emotional_step, h, hp]
  · intro meta clean full between h
    constructor
    · intro hs
      rcases hp : payload_json between with _ | fo
      · rw [hp] at hs
        simp at hs
      · simp [clarity_step, h, hp]
    · intro hp
      simp [clarity_step, h, hp]

/-- C5 counterexample: with an emotional-analysis block whose payload is
not valid JSON, the parser returns the text unchanged — the marker block
(markers included) is still present, no metadata is extracted, and the
clean text is not the trailing display text the claim promises. -/
theorem c5_counterexample :
    (parse_agent_response c5resp).1.isEmpty = true ∧
    (parse_agent_response c5resp).2 = c5resp ∧
    contains_sub (txt "[[EMOTIONAL_ANALYSIS]]") (parse_agent_response c5resp).2 = true ∧
    c5resp ≠ txt "Hello" := by
  decide

/-- Witness for C5: on a well-formed block the theorem yields the
removal equation, and the removed-and-stripped text is the trailing
display text. -/
theorem c5_witness :
    ((emotional_step ([], c5respOk)).2 = pyStrip (replaceAll c5fullOk c5respOk)) ∧
    pyStrip (replaceAll c5fullOk c5respOk) = txt "Hello" :=
  ⟨(((c5_block_removal c5respOk).2.2.1) c5fullOk c5btwOk (by decide)).1 (by decide),
   by decide⟩

/-- C6 counterexample: a message with technical keywords (debug, code)
and an emotional keyword (struggling), no grant and no share keywords,
classifies as technical — not emotional — when the model reply names the
technical label: the emotional keyword only suppresses the override, it
does not overwrite the model label. -/
theorem c6_counterexample :
    (classify (some (txt "technical")) c6msg).intent = txt "technical" ∧
    (classify (some (txt "technical")) c6msg).intent ≠ txt "emotional" ∧
    anyKw technical_keywords (pyLower c6msg) = true ∧
    anyKw emotional_keywords_clf (pyLower c6msg) = true ∧
    anyKw grant_keywords (pyLower c6msg) = false ∧
    anyKw scribe_keywords (pyLower c6msg) = false := by
  decide

/-- C6 amended: on a message with both a technical and an emotional
keyword (and no grant or share keyword), no keyword override fires, so
classify returns exactly the model-derived label — which is emotional
precisely when the reply normalizes to the emotional (default) label. -/
theorem c6_emotional_suppresses_override (reply message : List Char)
    (ht : anyKw technical_keywords (pyLower message) = true)
    (he : anyKw emotional_keywords_clf (pyLower message) = true)
    (hg : anyKw grant_keywords (pyLower message) = false)
    (hs : anyKw scribe_keywords (pyLower message) = false) :
    (classify (some reply) message).intent = extract_label reply ∧
    (extract_label reply = txt "emotional" →
      (classify (some reply) message).intent = txt "emotional") := by
  have hmain : (classify (some reply) message).intent = extract_label reply := by
    simp [classify, hg, hs, ht, he]
  exact ⟨hmain, fun hl => hmain.trans hl⟩

/-- Witness for C6 at the counterexample message with an emotional model
reply. -/
theorem c6_witness :
    (classify (some (txt "emotional")) c6msg).intent = txt "emotional" :=
  (c6_emotional_suppresses_override (txt "emotional") c6msg (by decide) (by decide)
    (by decide) (by decide)).2 (by decide)

/-- C1 (code evaluation): in auto mode, whatever the classified intent —
here the emotional case the claim is about — agent_mode is reassigned to
the routed mode before dispatch, so the dispatch takes the vent branch
and the peer-matching pass guarded by the auto literal is unreachable:
the Matchmaker is never invoked and peer_matches stays empty, contrary
to the claim and the spec scenario. -/
theorem c1_auto_mode_never_queries_matchmaker (st : Settings)
    (cosine : List ℚ → List ℚ → ℚ) (env : OrchEnv) (s : VStore)
    (message : List Char) (session : Session)
    (h : (classify env.classifierReply message).intent = txt "emotional") :
    ((process_message st cosine env s message session (txt "auto")).1.peer_matches = []) ∧
    (Ev.matchmakerCall ∉ (process_message st cosine env s message session (txt "auto")).2.1) ∧
    ((process_message st cosine env s message session (txt "auto")).1.agent_used =
      txt "Vent Validator") := by
  cases henv : env.ventOut with
  | structured t a =>
    refine ⟨?_, ?_, ?_⟩ <;>
      simp [process_message, h, get_agent_mode, vent_fill, henv, emptyEnvelope]
  | plain t =>
    refine ⟨?_, ?_, ?_⟩ <;>
      simp [process_message, h, get_agent_mode, vent_fill, henv, emptyEnvelope]

/-- Witness for C1 at the spec scenario message, an emotional classifier
reply and fixed agent outputs. -/
theorem c1_witness :
    ((process_message defaultSettings eqSim c1env emptyStore c1msg c1session
        (txt "auto")).1.peer_matches = []) ∧
    (Ev.matchmakerCall ∉ (process_message defaultSettings eqSim c1env emptyStore
        c1msg c1session (txt "auto")).2.1) ∧
    ((process_message defaultSettings eqSim c1env emptyStore c1msg c1session
        (txt "auto")).1.agent_used = txt "Vent Validator") :=
  c1_auto_mode_never_queries_matchmaker defaultSettings eqSim c1env emptyStore
    c1msg c1session (by decide)
